import Mathlib

/-!
Verification development for `brownie/project/compiler.py`: the coverage-map
reconstruction engine (source-map expansion, the correlation walk over the
instruction stream, revert reconciliation and the branch finalizer) together
with the short-circuit branch extractor.

The Python code is shallowly embedded: every fallible operation that the
Python source leaves unguarded (deque pops on empty deques, dict lookups,
list indexing, `int(...)` parses, arithmetic on `None`) is modelled by an
`Except PyErr` result whose error constructor names the Python exception
that would be raised.  Python dicts are modelled as insertion-ordered
association lists (value update in place keeps the key position, fresh keys
are appended), which matches the CPython semantics the code relies on.
-/



/-- An uncaught Python exception escaping `generate_coverage_data` or one of
its helpers.  The source has no structured error type of its own: any
failure surfaces as one of these. -/
inductive PyErr where
  | typeError
  | keyError
  | indexError
  | valueError
  | stopIteration
deriving DecidableEq, Repr

/-- Split a character list at every occurrence of `sep`, keeping empty
pieces: the model of Python `str.split(sep)` for a one-character separator
(`"a;;b".split(';') == ['a', '', 'b']`, `"".split(';') == ['']`). -/
def splitChars (sep : Char) : List Char → List (List Char)
  | [] => [[]]
  | c :: rest =>
    let r := splitChars sep rest
    if c = sep then [] :: r
    else
      match r with
      | [] => [[c]]
      | h :: t => (c :: h) :: t

/-- Python `str.split` on a string, one-character separator. -/
def pySplit (s : String) (sep : Char) : List String :=
  (splitChars sep s.data).map (fun l => String.mk l)

/-- Decimal digits to a number; `none` when empty or a non-digit appears. -/
def digitsToNat : List Char → Option Nat
  | [] => none
  | l => go l 0
where
  go : List Char → Nat → Option Nat
    | [], acc => some acc
    | c :: rest, acc =>
      if c.isDigit then go rest (10 * acc + (c.toNat - 48)) else none

/-- The model of Python `int(s)` for the decimal strings the compiler
emits in source maps: an optional minus sign followed by digits.  (Python
`int` also tolerates surrounding whitespace, a plus sign and underscores;
the compiler never emits those, and on any such string both the model and
`int` agree on every input actually reachable here.) -/
def pyInt (s : String) : Option Int :=
  match s.data with
  | '-' :: rest => (digitsToNat rest).map (fun n => -(n : Int))
  | l => (digitsToNat l).map (fun n => (n : Int))

/-- One expanded source-map row, `[start, length, contract_id, jump code]`.
`_expand_row` leaves a field as `None` (here `none`) when it is absent;
the first three fields are `int(...)`-parsed, the fourth is the raw string.
Fields past the fourth are never consulted by the engine and are dropped. -/
structure SMRow where
  s0 : Option Int
  s1 : Option Int
  s2 : Option Int
  s3 : Option String
deriving DecidableEq, Repr

/-- Embedding of `_expand_row`: split the entry on `':'`, `int`-parse the
first three fields (empty string becomes `None`), keep the rest as strings
and pad with `None` up to four fields.  A non-numeric nonempty field raises
`ValueError` exactly as Python `int` would. -/
def expand_row (row : String) : Except PyErr SMRow := do
  let fields := pySplit row ':'
  let parseAt (i : Nat) : Except PyErr (Option Int) :=
    match fields[i]? with
    | none => Except.ok none
    | some "" => Except.ok none
    | some f =>
      match pyInt f with
      | none => Except.error PyErr.valueError
      | some v => Except.ok (some v)
  let a ← parseAt 0
  let b ← parseAt 1
  let c ← parseAt 2
  Except.ok { s0 := a, s1 := b, s2 := c, s3 := fields[3]? }

/-- Does the row have a `None` among its four fields (triggering the
field-by-field inheritance loop in `expand_source_map`)? -/
def SMRow.hasNone (r : SMRow) : Bool :=
  r.s0.isNone || r.s1.isNone || r.s2.isNone || r.s3.isNone

/-- Field-by-field forward fill: `if source_map[i][x] is None:
source_map[i][x] = source_map[i-1][x]`. -/
def SMRow.fillFrom (r p : SMRow) : SMRow :=
  { s0 := r.s0.orElse (fun _ => p.s0)
    s1 := r.s1.orElse (fun _ => p.s1)
    s2 := r.s2.orElse (fun _ => p.s2)
    s3 := r.s3.orElse (fun _ => p.s3) }

/-- The forward-fill loop of `expand_source_map`, carrying the previous
expanded entry.  An entirely empty entry (`none`) becomes the previous
entry (even when that is `None` itself — plain assignment in Python).  A
non-empty entry with a `None` field inherits from the previous entry; if
the previous entry is the Python `None`, subscripting it raises
`TypeError`. -/
def expandFill (prev : Option SMRow) : List (Option SMRow) →
    Except PyErr (List (Option SMRow))
  | [] => Except.ok []
  | none :: rest => do
    let tail ← expandFill prev rest
    Except.ok (prev :: tail)
  | some r :: rest =>
    if r.hasNone then
      match prev with
      | none => Except.error PyErr.typeError
      | some p => do
        let r' := r.fillFrom p
        let tail ← expandFill (some r') rest
        Except.ok (some r' :: tail)
    else do
      let tail ← expandFill (some r) rest
      Except.ok (some r :: tail)

/-- The list comprehension `[_expand_row(i) if i else None for i in
source_map.split(';')]`. -/
def expandRows : List String → Except PyErr (List (Option SMRow))
  | [] => Except.ok []
  | i :: rest =>
    if i = "" then do
      let tail ← expandRows rest
      Except.ok (none :: tail)
    else do
      let r ← expand_row i
      let tail ← expandRows rest
      Except.ok (some r :: tail)

/-- Embedding of `expand_source_map`: split on `';'`, expand each non-empty
entry with `_expand_row`, then forward-fill empty entries and empty fields
from the immediately preceding expanded entry. -/
def expand_source_map (source_map : String) : Except PyErr (List (Option SMRow)) := do
  let rows ← expandRows (pySplit source_map ';')
  match rows with
  | [] => Except.ok []
  | r0 :: rest => do
    let tail ← expandFill r0 rest
    Except.ok (r0 :: tail)

/-! ## Association-list model of Python dicts -/

/-- Dict lookup: `d[k]` as an `Option` (callers decide whether a miss is a
`KeyError` or is guarded). -/
def alook {α β : Type} [DecidableEq α] (l : List (α × β)) (k : α) : Option β :=
  (l.find? (fun p => p.1 = k)).map (fun p => p.2)

/-- Dict store `d[k] = v`: update in place when the key exists (keeping its
insertion position), append otherwise — CPython dict semantics. -/
def aupd {α β : Type} [DecidableEq α] (l : List (α × β)) (k : α) (v : β) : List (α × β) :=
  if l.any (fun p => p.1 = k) then
    l.map (fun p => if p.1 = k then (k, v) else p)
  else l ++ [(k, v)]

/-- Dict delete `del d[k]`. -/
def adel {α β : Type} [DecidableEq α] (l : List (α × β)) (k : α) : List (α × β) :=
  l.filter (fun p => p.1 ≠ k)

/-- `d.setdefault(k, []).append(v)` for a dict of lists. -/
def rAppend {α : Type} [DecidableEq α] (l : List (α × List Nat)) (k : α) (v : Nat) :
    List (α × List Nat) :=
  match alook l k with
  | some vs => aupd l k (vs ++ [v])
  | none => l ++ [(k, [v])]

/-- Build a dict from a pair list, later pairs overwriting earlier values
(dict comprehension semantics). -/
def dictOfList {α β : Type} [DecidableEq α] (l : List (α × β)) : List (α × β) :=
  l.foldl (fun acc p => aupd acc p.1 p.2) []

/-- First-occurrence dedup: the model of iterating a Python `set` built
from a list (the set's iteration order is arbitrary; only membership and
key population matter downstream, so one concrete order is fixed). -/
def dedupKeepFirst {α : Type} [DecidableEq α] (l : List α) : List α :=
  go l []
where
  go : List α → List α → List α
    | [], _ => []
    | a :: rest, seen =>
      if a ∈ seen then go rest seen else a :: go rest (a :: seen)

/-! ## Hex formatting (`"0x" + hex(pc - 4).upper()[2:]`) -/

/-- Uppercase hex digits of `n`, most significant first; `"0"` for zero —
the digits of Python `hex(n)` after the `0x` prefix, uppercased. -/
def natToHexUpper (n : Nat) : String :=
  String.mk ((Nat.toDigits 16 n).map Char.toUpper)

/-- The string stored in `first_revert`: `"0x" + hex(v).upper()[2:]`.  For
negative `v` Python gives `hex(v) = "-0x…"`, so dropping two characters
leaves `"X…"` after the uppercase `"0x"` prefix is re-attached. -/
def firstRevertStr (v : Int) : String :=
  if v < 0 then "0x" ++ "X" ++ natToHexUpper v.natAbs
  else "0x" ++ natToHexUpper v.toNat

/-! ## The correlation walk (`generate_coverage_data`, lines 253–330) -/

/-- One entry of `pc_list`.  Optional dict keys are `Option`s (`none` means
the key is absent); `first_revert` and `jump_revert` are presence flags. -/
structure PCItem where
  op : String
  pc : Int
  first_revert : Bool := false
  jump : Option (Option String) := none
  value : Option String := none
  path : Option String := none
  offset : Option (Int × Int) := none
  fn : Option String := none
  statement : Option Nat := none
  branch : Option Nat := none
  jump_revert : Bool := false
deriving DecidableEq, Repr

/-- A node from `branch_nodes` / `branch_original`: a branch candidate with
its source offset and the `jump` flag the extractor stamped on it. -/
structure BranchNode where
  offset : Int × Int
  jump : Bool
deriving DecidableEq, Repr

/-- A `revert()` call node as consumed by the reconciliation pass: its
source offset and whether the call has arguments. -/
structure RevNode where
  offset : Int × Int
  hasArgs : Bool
deriving DecidableEq, Repr

/-- One statement-map record `statement_map[path][fn][index] = offset`
(the nested dicts are flattened to a record list in assignment order;
`setdefault` only ever appends fresh `index` keys, so no entry is ever
overwritten and the flat list carries the same information). -/
structure StmtEntry where
  path : String
  fn : String
  idx : Nat
  offset : Int × Int
deriving DecidableEq, Repr

/-- One branch-map record `branch_map[path][fn][index] = offset + (jump,)`,
flattened exactly like `StmtEntry`. -/
structure BranchEntry where
  path : String
  fn : String
  idx : Nat
  offset : Int × Int
  jump : Bool
deriving DecidableEq, Repr

/-- Read-only data consulted by the walk: `source_nodes` (contract id →
source path), the per-path branch-candidate offsets, and the AST oracle
behind `source_nodes[source[2]].children(depth=2, inner_offset=offset,
filters={'node_type': "FunctionDefinition"})[0].full_name` — `none` models
the `IndexError` the subscript raises when no function encloses the
offset. -/
structure WEnv where
  sourceNodes : List (Int × String)
  branchNodes : List (String × List (Int × Int))
  fnLookup : Int → (Int × Int) → Option String

/-- The mutable state threaded through the `while source_map:` loop. -/
structure WSt where
  opQ : List String
  pcList : List PCItem
  count : Nat
  pc : Int
  firstRevert : Option String
  revertMap : List ((String × String) × List Nat)
  stmtNodes : List (String × List (Int × Int))
  stmtMap : List StmtEntry
  branchActive : List (String × List ((Int × Int) × Nat))
  branchSet : List (String × List ((Int × Int) × (Nat × Nat)))
deriving Repr

/-- Modelled from the spec: `sources.is_inside_offset` lives in
`brownie/project/sources.py`, which is not part of the sources here.  Per
the spec an instruction offset "matches" a statement candidate when the
instruction's range lies inside the candidate's range, ranges being
`(start, end)` pairs. -/
def is_inside_offset (inner outer : Int × Int) : Bool :=
  decide (outer.1 ≤ inner.1) && decide (inner.2 ≤ outer.2)

/-- Python `set.discard(x)`: remove the element (first occurrence in the
list model). -/
def listErase {α : Type} [DecidableEq α] : List α → α → List α
  | [], _ => []
  | a :: rest, b => if a = b then rest else a :: listErase rest b

/-- The `try:`-block of the walk (lines 306–325): function attribution and
statement assignment, with `KeyError` / `IndexError` / `StopIteration` all
caught and swallowed.  Returns the updated current item, statement working
sets, statement map and counter.  `offv` is the Python variable `offset`
at that point — at a resolving `JUMPI` step it has been clobbered by the
`for offset in branch_active[path]` loop. -/
def tryStatement (env : WEnv) (cid : Int) (path : String) (offv : Int × Int)
    (prevItem : Option PCItem) (item : PCItem) (stmtNodes : List (String × List (Int × Int)))
    (stmtMap : List StmtEntry) (count : Nat) :
    PCItem × List (String × List (Int × Int)) × List StmtEntry × Nat :=
  match prevItem with
  | none =>
    -- pc_list[-2] raises IndexError on the first step: whole block skipped
    (item, stmtNodes, stmtMap, count)
  | some prev =>
    if prev.offset = some offv then
      -- pc_list[-1]['fn'] = pc_list[-2]['fn']; KeyError caught when absent
      match prev.fn with
      | none => (item, stmtNodes, stmtMap, count)
      | some f => ({ item with fn := some f }, stmtNodes, stmtMap, count)
    else
      match env.fnLookup cid offv with
      | none =>
        -- children(...)[0] raised IndexError: nothing is set
        (item, stmtNodes, stmtMap, count)
      | some fname =>
        -- the fn assignment lands before any later exception can fire
        let item1 := { item with fn := some fname }
        match alook stmtNodes path with
        | none =>
          -- statement_nodes[path] KeyError caught, fn assignment kept
          (item1, stmtNodes, stmtMap, count)
        | some cands =>
          match cands.find? (fun c => is_inside_offset offv c) with
          | none =>
            -- next(...) raised StopIteration; fn assignment kept
            (item1, stmtNodes, stmtMap, count)
          | some stc =>
            (({ item1 with statement := some count }),
             aupd stmtNodes path (listErase cands stc),
             stmtMap ++ [{ path := path, fn := fname, idx := count, offset := stc }],
             count + 1)

/-- Commit helper: write the finished current item back over the last
`pc_list` slot and assemble the successor state. -/
def commitStep (opQ : List String) (pcl : List PCItem) (item : PCItem)
    (pc : Int) (fr : Option String) (bAct : List (String × List ((Int × Int) × Nat)))
    (bSet : List (String × List ((Int × Int) × (Nat × Nat))))
    (stmtN : List (String × List (Int × Int))) (stmtM : List StmtEntry)
    (count : Nat) (rmap : List ((String × String) × List Nat)) : WSt :=
  { opQ := opQ, pcList := pcl.set (pcl.length - 1) item, count := count, pc := pc,
    firstRevert := fr, revertMap := rmap, stmtNodes := stmtN, stmtMap := stmtM,
    branchActive := bAct, branchSet := bSet }

/-- Stage F of one walk iteration: function attribution / statement
assignment (the `try:` block) followed by the revert-jump bookkeeping of
lines 326–330, then state commit. -/
def walkStepF (env : WEnv) (st : WSt) (cid : Int) (path : String) (offv : Int × Int)
    (pcl1 : List PCItem) (fr1 : Option String) (item5 : PCItem) (opQ2 : List String)
    (pc3 : Int) (bAct2 : List (String × List ((Int × Int) × Nat)))
    (bSet2 : List (String × List ((Int × Int) × (Nat × Nat)))) : Except PyErr WSt :=
  let n := pcl1.length
  let prevItem := if n ≥ 2 then pcl1[n - 2]? else none
  match tryStatement env cid path offv prevItem item5 st.stmtNodes st.stmtMap st.count with
  | (item6, stmtN2, stmtM2, count2) =>
    match item6.value with
    | none =>
      Except.ok (commitStep opQ2 pcl1 item6 pc3 fr1 bAct2 bSet2 stmtN2 stmtM2
        count2 st.revertMap)
    | some v =>
      if some v = fr1 then
        match opQ2 with
        | [] => Except.error PyErr.indexError
        | nxt :: _ =>
          if nxt = "JUMP" ∨ nxt = "JUMPI" then
            match item6.path, item6.fn with
            | some p, some f =>
              Except.ok (commitStep opQ2 pcl1 item6 pc3 fr1 bAct2 bSet2 stmtN2 stmtM2
                count2 (rAppend st.revertMap (p, f) n))
            | _, _ =>
              -- pc_list[-1]['path'] / ['fn'] raise KeyError outside any try
              Except.error PyErr.keyError
          else
            Except.ok (commitStep opQ2 pcl1 item6 pc3 fr1 bAct2 bSet2 stmtN2 stmtM2
              count2 st.revertMap)
      else
        Except.ok (commitStep opQ2 pcl1 item6 pc3 fr1 bAct2 bSet2 stmtN2 stmtM2
          count2 st.revertMap)

/-- Stage E: the branch-marker logic of lines 293–304.  On a resolving
`JUMPI` every active offset moves into `branch_set` paired with the
current step index, `active` is cleared, and — because the resolution loop
reuses the Python variable `offset` — the value flowing into the
`try:` block below is the *last iterated active key*, not the step's own
offset. -/
def walkStepE (env : WEnv) (st : WSt) (cid : Int) (path : String) (off : Int × Int)
    (pcl1 : List PCItem) (fr1 : Option String) (item5 : PCItem) (opQ2 : List String)
    (pc3 : Int) : Except PyErr WSt :=
  match alook st.branchActive path with
  | none => Except.error PyErr.keyError
  | some active =>
    let armedIdx := pcl1.length - 1
    if active ≠ [] ∧ item5.op = "JUMPI" then
      match alook st.branchSet path with
      | none => Except.error PyErr.keyError
      | some bset =>
        let bset2 := active.foldl (fun acc pr => aupd acc pr.1 (pr.2, armedIdx)) bset
        walkStepF env st cid path (active.getLastD ((0, 0), 0)).1 pcl1 fr1 item5 opQ2
          pc3 (aupd st.branchActive path []) (aupd st.branchSet path bset2)
    else
      match alook env.branchNodes path with
      | none => Except.error PyErr.keyError
      | some bnodes =>
        if off ∈ bnodes then
          match alook st.branchSet path with
          | none => Except.error PyErr.keyError
          | some bset =>
            let bset2 := if (alook bset off).isSome then adel bset off else bset
            walkStepF env st cid path off pcl1 fr1 item5 opQ2 pc3
              (aupd st.branchActive path (aupd active off armedIdx))
              (aupd st.branchSet path bset2)
        else
          walkStepF env st cid path off pcl1 fr1 item5 opQ2 pc3
            st.branchActive st.branchSet

/-- Stage D: contract-path and source-offset attribution (lines 281–291).
`None == -1` is `False` in Python, so a `None` contract id falls through
to the dict lookup and raises `KeyError`, and a `None` start or length
reaches the tuple arithmetic `source[0] + source[1]` and raises
`TypeError`. -/
def walkStepD (env : WEnv) (st : WSt) (srow : SMRow) (pcl1 : List PCItem)
    (fr1 : Option String) (item3 : PCItem) (opQ2 : List String) (pc3 : Int) :
    Except PyErr WSt :=
  match srow.s2 with
  | none => Except.error PyErr.keyError
  | some cid =>
    if cid = -1 then
      Except.ok (commitStep opQ2 pcl1 item3 pc3 fr1 st.branchActive st.branchSet
        st.stmtNodes st.stmtMap st.count st.revertMap)
    else
      match alook env.sourceNodes cid with
      | none => Except.error PyErr.keyError
      | some path =>
        let item4 := { item3 with path := some path }
        match srow.s0 with
        | none => Except.error PyErr.typeError
        | some s0v =>
          if s0v = -1 then
            Except.ok (commitStep opQ2 pcl1 item4 pc3 fr1 st.branchActive st.branchSet
              st.stmtNodes st.stmtMap st.count st.revertMap)
          else
            match srow.s1 with
            | none => Except.error PyErr.typeError
            | some s1v =>
              walkStepE env st cid path (s0v, s0v + s1v) pcl1 fr1
                { item4 with offset := some (s0v, s0v + s1v) } opQ2 pc3

/-- Stage C: the jump-code field (line 273), `pc += 1`, and the push-value
peek of lines 277–279 (`opcodes[0]` raises IndexError on an exhausted
deque; `int(op[4:])` raises ValueError on a non-PUSH mnemonic). -/
def walkStepC (env : WEnv) (st : WSt) (srow : SMRow) (opQ1 : List String)
    (pcl1 : List PCItem) (fr1 : Option String) (item1 : PCItem) : Except PyErr WSt :=
  let item2 := if srow.s3 ≠ some "-" then { item1 with jump := some srow.s3 } else item1
  let pc2 := st.pc + 1
  match opQ1 with
  | [] => Except.error PyErr.indexError
  | nextOp :: _ =>
    if nextOp.data.take 2 = ['0', 'x'] then
      match pyInt (String.mk (item2.op.data.drop 4)) with
      | none => Except.error PyErr.valueError
      | some w =>
        walkStepD env st srow pcl1 fr1 { item2 with value := some nextOp }
          (opQ1.drop 1) (pc2 + w)
    else walkStepD env st srow pcl1 fr1 item2 opQ1 pc2

/-- Stage B: append the new `pc_list` item, detect the shared
function-selector revert target (lines 264–271), then subscript the source
row (`source[3]` on the Python `None` raises TypeError). -/
def walkStepB (env : WEnv) (source : Option SMRow) (st : WSt) (op : String)
    (opQ1 : List String) : Except PyErr WSt :=
  let item0 : PCItem := { op := op, pc := st.pc }
  let pcl1 := st.pcList ++ [item0]
  let n := pcl1.length
  let frHit : Bool :=
    st.firstRevert.isNone && op = "REVERT" &&
      ((pcl1.take (n - 1)).drop (n - 4)).map (fun i => i.op) =
        ["JUMPDEST", "PUSH1", "DUP1"]
  let fr1 := if frHit then some (firstRevertStr (st.pc - 4)) else st.firstRevert
  let item1 := if frHit then { item0 with first_revert := true } else item0
  match source with
  | none => Except.error PyErr.typeError
  | some srow => walkStepC env st srow opQ1 pcl1 fr1 item1

/-- One iteration of the walk loop, consuming one (already expanded)
source-map entry: `pc_list.append({'op': opcodes.popleft(), 'pc': pc})`
raises IndexError when the opcode deque is exhausted first. -/
def walkStep (env : WEnv) (source : Option SMRow) (st : WSt) : Except PyErr WSt :=
  match st.opQ with
  | [] => Except.error PyErr.indexError
  | op :: opQ1 => walkStepB env source st op opQ1

/-- The whole `while source_map:` loop. -/
def walkLoop (env : WEnv) : List (Option SMRow) → WSt → Except PyErr WSt
  | [], st => Except.ok st
  | s :: rest, st => do
    let st' ← walkStep env s st
    walkLoop env rest st'

/-! ## Revert reconciliation (lines 332–349) -/

/-- The inner loop over a function's bare `revert()` nodes.  A node whose
offset already occurs in `pc_list` is skipped; otherwise the head of
`values` is claimed and that `pc_list` slot is stamped with the node's
offset and a `jump_revert` marker.  `values[0]` on an exhausted list, and
`pc_list[values[0]]` past the end, raise `IndexError` (uncaught). -/
def revertLoop (pcl : List PCItem) (values : List Nat) :
    List RevNode → Except PyErr (List PCItem × List Nat)
  | [] => Except.ok (pcl, values)
  | node :: rest =>
    if node.hasArgs then revertLoop pcl values rest
    else if pcl.any (fun x => x.offset = some node.offset) then
      revertLoop pcl values rest
    else
      match values with
      | [] => Except.error PyErr.indexError
      | v0 :: vrest =>
        match pcl[v0]? with
        | none => Except.error PyErr.indexError
        | some it =>
          revertLoop
            (pcl.set v0 { it with offset := some node.offset, jump_revert := true })
            vrest rest

/-- The outer loop over `revert_map.items()`.  `revertFn path fn` models
`next(i for i in source_nodes.values() if i.path == path).children(depth=2,
include_children=False, filters={…, 'full_name': fn_name})[0].children(
filters={'node_type': "FunctionCall", 'name': "revert"})` — the function's
`revert`-call nodes; `none` models the `IndexError` of the `[0]` subscript
when the function node cannot be found. -/
def revertPass (revertFn : String → String → Option (List RevNode))
    (pcl : List PCItem) :
    List ((String × String) × List Nat) → Except PyErr (List PCItem)
  | [] => Except.ok pcl
  | ((path, fname), values) :: rest =>
    match revertFn path fname with
    | none => Except.error PyErr.indexError
    | some nodes => do
      let (pcl', _) ← revertLoop pcl values nodes
      revertPass revertFn pcl' rest

/-! ## Branch finalizer (lines 351–368) -/

/-- Flatten `branch_set` to the iteration list
`[(k, x, y) for k, v in branch_set.items() for x, y in v.items()]`. -/
def branchTriples (bset : List (String × List ((Int × Int) × (Nat × Nat)))) :
    List (String × (Int × Int) × (Nat × Nat)) :=
  bset.flatMap (fun pv => pv.2.map (fun xy => (pv.1, xy.1, xy.2)))

/-- The finalizer loop.  Both indexed `pc_list` slots are stamped with the
shared counter; the enclosing function is reused from the armed step when
present.  When the armed step has no `'fn'` key the fallback executes
`source_nodes[path].children(…)` — but `source_nodes` is keyed by contract
id (an `int`), so subscripting it with a `path` string always raises
`KeyError`.  `next(i for i in branch_original[path] if i.offset == offset)`
raises `StopIteration` when no candidate matches, and a missing
`branch_original` path key raises `KeyError`. -/
def finalizeLoop (brOriginal : List (String × List BranchNode)) (pcl : List PCItem)
    (count : Nat) :
    List (String × (Int × Int) × (Nat × Nat)) →
      Except PyErr (List PCItem × List BranchEntry × Nat)
  | [] => Except.ok (pcl, [], count)
  | (path, off, i0, i1) :: rest =>
    match pcl[i0]? with
    | none => Except.error PyErr.indexError
    | some it0 =>
      let pcl1 := pcl.set i0 { it0 with branch := some count }
      match pcl1[i1]? with
      | none => Except.error PyErr.indexError
      | some it1 =>
        let pcl2 := pcl1.set i1 { it1 with branch := some count }
        match (pcl2[i0]?.map (fun i => i.fn)).join with
        | none =>
          -- 'fn' absent on the armed step: `source_nodes[path]` with a string
          -- path against int keys — unconditional KeyError
          Except.error PyErr.keyError
        | some f =>
          match alook brOriginal path with
          | none => Except.error PyErr.keyError
          | some cands =>
            match cands.find? (fun i => i.offset = off) with
            | none => Except.error PyErr.stopIteration
            | some node => do
              let (pcl3, entries, count') ← finalizeLoop brOriginal pcl2 (count + 1) rest
              Except.ok (pcl3,
                { path := path, fn := f, idx := count, offset := off,
                  jump := node.jump } :: entries, count')

/-! ## `generate_coverage_data` assembled -/

/-- Re-key a dict over a path list, the model of
`dict((i, d[i].copy()) for i in paths)`: a missing key raises `KeyError`. -/
def lookupAll {β : Type} (src : List (String × β)) :
    List String → Except PyErr (List (String × β))
  | [] => Except.ok []
  | p :: rest =>
    match alook src p with
    | none => Except.error PyErr.keyError
    | some v => do
      let tail ← lookupAll src rest
      Except.ok ((p, v) :: tail)

/-- The full input of `generate_coverage_data`.  AST-derived inputs are the
data the solc-ast node objects would yield: `nodes` pairs each contract id
of `[contract_node] + dependencies` with its parent source-unit path;
`stmtNodesIn` / `branchNodesIn` are the per-path statement and branch
candidate collections; `fnLookup` and `revertFn` are the two tree lookups
the engine performs (see `WEnv` and `revertPass`). -/
structure GCInput where
  sourceMapStr : String
  opcodesStr : String
  nodes : List (Int × String)
  stmtNodesIn : List (String × List (Int × Int))
  branchNodesIn : List (String × List BranchNode)
  fnLookup : Int → (Int × Int) → Option String
  revertFn : String → String → Option (List RevNode)

/-- The returned triple: `pc_list` (the program-counter map before its
final re-keying by `pc`, which discards nothing), the flattened statement
map and the flattened branch map. -/
abbrev GCOut := List PCItem × List StmtEntry × List BranchEntry

/-- Embedding of `generate_coverage_data` (lines 197–371): early return on
an empty opcode string, source-map expansion, working-set setup, the walk,
revert reconciliation, and the branch finalizer. -/
def generate_coverage_data (inp : GCInput) : Except PyErr GCOut := do
  if inp.opcodesStr = "" then
    Except.ok (([] : List PCItem), ([] : List StmtEntry), ([] : List BranchEntry))
  else do
    let sm ← expand_source_map inp.sourceMapStr
    let ops := pySplit inp.opcodesStr ' '
    let sourceNodes := dictOfList inp.nodes
    let paths := dedupKeepFirst (sourceNodes.map (fun p => p.2))
    let stmtN ← lookupAll inp.stmtNodesIn paths
    let brOriginal ← lookupAll inp.branchNodesIn paths
    let brNodes := brOriginal.map (fun pv => (pv.1, pv.2.map (fun b => b.offset)))
    let env : WEnv :=
      { sourceNodes := sourceNodes, branchNodes := brNodes, fnLookup := inp.fnLookup }
    let st0 : WSt :=
      { opQ := ops, pcList := [], count := 0, pc := 0, firstRevert := none,
        revertMap := [], stmtNodes := stmtN, stmtMap := [],
        branchActive := paths.map (fun p => (p, [])),
        branchSet := paths.map (fun p => (p, [])) }
    let stW ← walkLoop env sm st0
    let pcl2 ← revertPass inp.revertFn stW.pcList stW.revertMap
    let (pcl3, brMap, _) ← finalizeLoop brOriginal pcl2 stW.count
      (branchTriples stW.branchSet)
    Except.ok (pcl3, stW.stmtMap, brMap)

/-! ## Short-circuit branch extraction (`_get_recursive_branches` and
helpers, lines 423–468)

The tree traversal primitives (`children`, `parents`, node iteration,
`is_child_of`) belong to the external solc-ast node objects; they are
modelled from the spec's description of the extractor (spec §4.2): node
kind, offset, child traversal, bounded ancestor traversal.  The three
functions below them are translated from the source. -/

/-- A condition-expression node: either a boolean `BinaryOperation` (with
its operator string — comparisons like `==` are also boolean binaries) or
any other expression (a leaf for the extractor's purposes).  Leaves carry
an id so that structurally equal but distinct source nodes stay distinct,
mirroring Python object identity. -/
inductive ENode where
  | leaf : Nat → Int × Int → ENode
  | bbin : String → Int × Int → ENode → ENode → ENode
deriving DecidableEq, Repr

/-- The node handed to `_get_recursive_branches`: a `require(...)` call
(`FunctionCall`) with its argument nodes, or an `if` / ternary with its
condition node. -/
inductive BaseNode where
  | functionCall : List ENode → BaseNode
  | ifStatement : ENode → BaseNode
  | conditional : ENode → BaseNode
deriving DecidableEq, Repr

/-- The `filters` of `_get_recursive_branches`: a boolean `BinaryOperation`
whose operator is `||` or `&&`. -/
def ENode.isOrAnd : ENode → Bool
  | ENode.bbin op _ _ _ => op = "||" || op = "&&"
  | _ => false

/-- `node.children(include_parents=True, include_self=True, filters=…)`:
every node of the subtree (self included) matching `isOrAnd`, in preorder. -/
def ENode.collectBB : ENode → List ENode
  | ENode.leaf i o => if (ENode.leaf i o).isOrAnd then [ENode.leaf i o] else []
  | ENode.bbin op o l r =>
    (if (ENode.bbin op o l r).isOrAnd then [ENode.bbin op o l r] else [])
      ++ l.collectBB ++ r.collectBB

/-- Iterating a solc-ast node yields its child nodes (`for x in i`). -/
def ENode.directChildren : ENode → List ENode
  | ENode.leaf _ _ => []
  | ENode.bbin _ _ l r => [l, r]

/-- Subtree membership, non-strict (`node.is_child_of` and descendant
checks; strictness never matters at its use sites because `i.left == node`
is tested separately). -/
def ENode.occursIn (t : ENode) : ENode → Bool
  | ENode.leaf i o => t = ENode.leaf i o
  | ENode.bbin op o l r => t = ENode.bbin op o l r || t.occursIn l || t.occursIn r

/-- `node.parents(depth, {'node_type': "BinaryOperation", 'type': "bool"})`
relative to the expression root: every boolean-binary ancestor of `t`
inside `root`, nearest first.  `none` when `t` does not occur in `root`. -/
def boolBinParents (t : ENode) : ENode → Option (List ENode)
  | ENode.leaf i o => if t = ENode.leaf i o then some [] else none
  | ENode.bbin op o l r =>
    if t = ENode.bbin op o l r then some []
    else
      match boolBinParents t l with
      | some ps => some (ps ++ [ENode.bbin op o l r])
      | none =>
        match boolBinParents t r with
        | some ps => some (ps ++ [ENode.bbin op o l r])
        | none => none

/-- The left operand of a boolean binary (never consulted on leaves). -/
def ENode.leftChild : ENode → Option ENode
  | ENode.bbin _ _ l _ => some l
  | _ => none

/-- Does ancestor `i` have `t` as, or inside, its left operand
(`i.left == node or node.is_child_of(i.left)`)? -/
def onLeftOf (t i : ENode) : Bool :=
  match i.leftChild with
  | some l => l = t || t.occursIn l
  | none => false

/-- Embedding of `_is_rightmost_operation` against the expression roots in
scope (= the subtree below the base node's depth bound): no boolean-binary
ancestor has this node on its left side. -/
def is_rightmost_operation (roots : List ENode) (t : ENode) : Bool :=
  let parents := (roots.map (boolBinParents t)).foldl
    (fun acc o => acc ++ o.getD []) []
  !(parents.any (fun i => onLeftOf t i))

/-- Embedding of `_check_left_operator`: the nearest boolean-binary parent
with this node on its left side; `True` iff its operator is `||`.  `none`
models the `StopIteration` of the unguarded `next(...)`. -/
def check_left_operator (roots : List ENode) (t : ENode) : Option Bool :=
  let parents := (roots.map (boolBinParents t)).foldl
    (fun acc o => acc ++ o.getD []) []
  (parents.find? (fun i => onLeftOf t i)).map
    (fun i =>
      match i with
      | ENode.bbin op _ _ _ => op = "||"
      | _ => false)

/-- The expression roots scanned by `_get_recursive_branches`: the call's
argument subtrees for a `FunctionCall`, the condition for the others. -/
def BaseNode.roots : BaseNode → List ENode
  | BaseNode.functionCall args => args
  | BaseNode.ifStatement c => [c]
  | BaseNode.conditional c => [c]

/-- Embedding of `_get_recursive_branches`.  Returns the branch nodes with
the `jump` flag the Python code assigns as a node attribute. -/
def get_recursive_branches (base : BaseNode) : Except PyErr (List (ENode × Bool)) := do
  let jump : Bool :=
    match base with
    | BaseNode.functionCall _ => true
    | _ => false
  let roots := base.roots
  let all_binaries := roots.flatMap ENode.collectBB
  if all_binaries = [] then
    match base with
    | BaseNode.functionCall args =>
      match args with
      | [] => Except.error PyErr.indexError
      | a0 :: _ => Except.ok [(a0, jump)]
    | BaseNode.ifStatement c => Except.ok [(c, jump)]
    | BaseNode.conditional c => Except.ok [(c, jump)]
  else
    (all_binaries.flatMap ENode.directChildren).foldlM
      (fun acc node =>
        if node.collectBB ≠ [] then Except.ok acc
        else if is_rightmost_operation roots node then
          Except.ok (acc ++ [(node, jump)])
        else
          match check_left_operator roots node with
          | none => Except.error PyErr.stopIteration
          | some j => Except.ok (acc ++ [(node, j)]))
      []

/-! ## Concrete inputs used by the claim theorems below -/

/-- A source map with one more entry than there are opcode tokens. -/
def c5MismatchInput : GCInput :=
  { sourceMapStr := "0:0:-1:-;0:0:-1:-", opcodesStr := "STOP",
    nodes := [(0, "p")], stmtNodesIn := [("p", [])], branchNodesIn := [("p", [])],
    fnLookup := fun _ _ => none, revertFn := fun _ _ => some [] }

/-- A source map whose leading entry is entirely empty. -/
def c5EmptyLeadInput : GCInput :=
  { sourceMapStr := ";0:0:-1:-", opcodesStr := "STOP STOP STOP",
    nodes := [(0, "p")], stmtNodesIn := [("p", [])], branchNodesIn := [("p", [])],
    fnLookup := fun _ _ => none, revertFn := fun _ _ => some [] }

/-- Count mismatch, three entries against two opcode tokens. -/
def c5MismatchInput2 : GCInput :=
  { sourceMapStr := "0:0:-1:-;0:0:-1:-;0:0:-1:-", opcodesStr := "STOP STOP",
    nodes := [(0, "p")], stmtNodesIn := [("p", [])], branchNodesIn := [("p", [])],
    fnLookup := fun _ _ => none, revertFn := fun _ _ => some [] }

/-- Two entirely empty entries (`";"`). -/
def c5AllEmptyInput : GCInput :=
  { sourceMapStr := ";", opcodesStr := "STOP STOP STOP",
    nodes := [(0, "p")], stmtNodesIn := [("p", [])], branchNodesIn := [("p", [])],
    fnLookup := fun _ _ => none, revertFn := fun _ _ => some [] }

/-- A leading entry with an empty (un-inheritable) start field. -/
def c5EmptyFieldInput : GCInput :=
  { sourceMapStr := ":0:0:-", opcodesStr := "STOP STOP",
    nodes := [(0, "p")], stmtNodesIn := [("p", [])], branchNodesIn := [("p", [])],
    fnLookup := fun _ _ => none, revertFn := fun _ _ => some [] }

/-- Count mismatch in the other direction: one source-map entry against
three opcode tokens. -/
def c5FewerInput : GCInput :=
  { sourceMapStr := "0:0:-1:-", opcodesStr := "STOP STOP STOP",
    nodes := [(0, "p")], stmtNodesIn := [("p", [])], branchNodesIn := [("p", [])],
    fnLookup := fun _ _ => none, revertFn := fun _ _ => some [] }

/-- Minimal walk environment for the C5-amended witness. -/
def c5wEnv : WEnv :=
  { sourceNodes := [], branchNodes := [], fnLookup := fun _ _ => none }

/-- Walk state with an exhausted opcode deque. -/
def c5wSt0 : WSt :=
  { opQ := [], pcList := [], count := 0, pc := 0, firstRevert := none,
    revertMap := [], stmtNodes := [], stmtMap := [],
    branchActive := [], branchSet := [] }

/-- Walk state with a single opcode token left. -/
def c5wSt1 : WSt := { c5wSt0 with opQ := ["STOP"] }

/-- The boolean leaf operand `a`. -/
def c7a : ENode := ENode.leaf 1 (10, 11)

/-- The boolean leaf operand `b`. -/
def c7b : ENode := ENode.leaf 2 (15, 16)

/-- The condition `a || b`. -/
def c7or : ENode := ENode.bbin "||" (10, 16) c7a c7b

/-- The `require(a || b)` call node. -/
def c7base : BaseNode := BaseNode.functionCall [c7or]

/-- Input whose single resolved branch pair has an armed step that carries
no function attribution (the arming happens at step 0, where the
`pc_list[-2]` lookback raises the caught `IndexError` and the `try:` block
is skipped before any `'fn'` assignment). -/
def c8Input : GCInput :=
  { sourceMapStr := "10:10:0:-;30:1:0:-;0:0:0:-",
    opcodesStr := "JUMPDEST JUMPI STOP STOP",
    nodes := [(0, "p")], stmtNodesIn := [("p", [])],
    branchNodesIn := [("p", [{ offset := (10, 20), jump := true }])],
    fnLookup := fun _ _ => none, revertFn := fun _ _ => some [] }

/-- The walk environment `generate_coverage_data` builds for `c8Input`. -/
def c8env : WEnv :=
  { sourceNodes := [(0, "p")], branchNodes := [("p", [(10, 20)])],
    fnLookup := fun _ _ => none }

/-- The expanded source map of `c8Input`. -/
def c8sm : List (Option SMRow) :=
  [some ⟨some 10, some 10, some 0, some "-"⟩,
   some ⟨some 30, some 1, some 0, some "-"⟩,
   some ⟨some 0, some 0, some 0, some "-"⟩]

/-- The walk start state for `c8Input`. -/
def c8st0 : WSt :=
  { opQ := ["JUMPDEST", "JUMPI", "STOP", "STOP"], pcList := [], count := 0,
    pc := 0, firstRevert := none, revertMap := [], stmtNodes := [("p", [])],
    stmtMap := [], branchActive := [("p", [])], branchSet := [("p", [])] }

/-- Walk environment: one source unit `"p"`, one branch candidate offset. -/
def c2env : WEnv :=
  { sourceNodes := [(0, "p")], branchNodes := [("p", [(10, 20)])],
    fnLookup := fun _ _ => none }

/-- Two expanded entries: the arming step, then a `JUMPI` step whose
start field is `-1` (path attributed, offset not). -/
def c2sm : List (Option SMRow) :=
  [some ⟨some 10, some 10, some 0, some "-"⟩,
   some ⟨some (-1), some 0, some 0, some "-"⟩]

/-- Walk start state for the C2 counterexample. -/
def c2st0 : WSt :=
  { opQ := ["JUMPDEST", "JUMPI", "STOP"], pcList := [], count := 0,
    pc := 0, firstRevert := none, revertMap := [], stmtNodes := [("p", [])],
    stmtMap := [], branchActive := [("p", [])], branchSet := [("p", [])] }

/-- Environment for the C2-amended witness. -/
def c2wEnv : WEnv :=
  { sourceNodes := [(0, "p")], branchNodes := [("p", [(10, 20)])],
    fnLookup := fun _ _ => none }

/-- Mid-walk state for the C2-amended witness: one armed branch. -/
def c2wSt : WSt :=
  { opQ := ["JUMPI", "STOP"],
    pcList := [{ op := "JUMPDEST", pc := 0, path := some "p", offset := some (10, 20) }],
    count := 0, pc := 1, firstRevert := none, revertMap := [],
    stmtNodes := [("p", [])], stmtMap := [],
    branchActive := [("p", [((10, 20), 0)])], branchSet := [("p", [])] }

/-- Walk environment for the C6 counterexample. -/
def c6env : WEnv :=
  { sourceNodes := [(0, "p")], branchNodes := [("p", [])],
    fnLookup := fun _ _ => some "f()" }

/-- Expanded source map: five unattributed entries covering the selector
prologue (`STOP JUMPDEST PUSH1 0x60 DUP1 REVERT`), then the attributed
push of the shared revert target, then the `JUMP`. -/
def c6sm : List (Option SMRow) :=
  [some ⟨some 0, some 0, some (-1), some "-"⟩,
   some ⟨some 0, some 0, some (-1), some "-"⟩,
   some ⟨some 0, some 0, some (-1), some "-"⟩,
   some ⟨some 0, some 0, some (-1), some "-"⟩,
   some ⟨some 0, some 0, some (-1), some "-"⟩,
   some ⟨some 100, some 10, some 0, some "-"⟩,
   some ⟨some 0, some 0, some (-1), some "-"⟩]

/-- Walk start state for the C6 counterexample. -/
def c6st0 : WSt :=
  { opQ := ["STOP", "JUMPDEST", "PUSH1", "0x60", "DUP1", "REVERT",
            "PUSH1", "0x1", "JUMP", "STOP"],
    pcList := [], count := 0, pc := 0, firstRevert := none,
    revertMap := [], stmtNodes := [("p", [])], stmtMap := [],
    branchActive := [("p", [])], branchSet := [("p", [])] }

/-- Environment for the C6-amended witness. -/
def c6wEnv : WEnv :=
  { sourceNodes := [(0, "p")], branchNodes := [("p", [])],
    fnLookup := fun _ _ => some "f()" }

/-- Mid-walk state for the C6-amended witness: about to process the push
of the shared revert target `"0x1"`, one prior attributed step. -/
def c6wSt : WSt :=
  { opQ := ["PUSH1", "0x1", "JUMP", "STOP"],
    pcList := [{ op := "DUP1", pc := 4, offset := some (100, 110), fn := some "f()" }],
    count := 0, pc := 5, firstRevert := some "0x1", revertMap := [],
    stmtNodes := [("p", [])], stmtMap := [],
    branchActive := [("p", [])], branchSet := [("p", [])] }

/-- Full input: a selector prologue establishing `first_revert = "0x1"`,
two later pushes of that target each followed by a `JUMP` (two recorded
candidate steps), and three bare `revert()` nodes whose offsets never
appear in `pc_list`. -/
def c4Input : GCInput :=
  { sourceMapStr :=
      "0:0:-1:-;0:0:-1:-;0:0:-1:-;0:0:-1:-;0:0:-1:-;100:10:0:-;0:0:-1:-;120:10:0:-;0:0:-1:-;0:0:-1:-",
    opcodesStr := "STOP JUMPDEST PUSH1 0x60 DUP1 REVERT PUSH1 0x1 JUMP PUSH1 0x1 JUMP STOP STOP",
    nodes := [(0, "p")], stmtNodesIn := [("p", [])], branchNodesIn := [("p", [])],
    fnLookup := fun _ _ => some "f()",
    revertFn := fun _ _ => some
      [{ offset := (900, 910), hasArgs := false },
       { offset := (920, 930), hasArgs := false },
       { offset := (940, 950), hasArgs := false }] }

/-- Walk environment of `c4Input`. -/
def c4env : WEnv :=
  { sourceNodes := [(0, "p")], branchNodes := [("p", [])],
    fnLookup := fun _ _ => some "f()" }

/-- Expanded source map of `c4Input`. -/
def c4sm : List (Option SMRow) :=
  [some ⟨some 0, some 0, some (-1), some "-"⟩,
   some ⟨some 0, some 0, some (-1), some "-"⟩,
   some ⟨some 0, some 0, some (-1), some "-"⟩,
   some ⟨some 0, some 0, some (-1), some "-"⟩,
   some ⟨some 0, some 0, some (-1), some "-"⟩,
   some ⟨some 100, some 10, some 0, some "-"⟩,
   some ⟨some 0, some 0, some (-1), some "-"⟩,
   some ⟨some 120, some 10, some 0, some "-"⟩,
   some ⟨some 0, some 0, some (-1), some "-"⟩,
   some ⟨some 0, some 0, some (-1), some "-"⟩]

/-- Walk start state of `c4Input`. -/
def c4st0 : WSt :=
  { opQ := ["STOP", "JUMPDEST", "PUSH1", "0x60", "DUP1", "REVERT",
            "PUSH1", "0x1", "JUMP", "PUSH1", "0x1", "JUMP", "STOP", "STOP"],
    pcList := [], count := 0, pc := 0, firstRevert := none,
    revertMap := [], stmtNodes := [("p", [])], stmtMap := [],
    branchActive := [("p", [])], branchSet := [("p", [])] }

/-- The offsets assigned to path `p` in the flattened statement map. -/
def stmtAssigned (m : List StmtEntry) (p : String) : List (Int × Int) :=
  (m.filter (fun e => e.path = p)).map (fun e => e.offset)

/-- The statement-state invariant carried through the walk: statement map
indices are strictly increasing and below the shared counter, and per
path the original candidate list is a permutation of (assigned offsets ++
remaining working set); paths absent from the working set have no
assignments. -/
def TInv (orig sn : List (String × List (Int × Int))) (sm : List StmtEntry)
    (count : Nat) : Prop :=
  (∀ e ∈ sm, e.idx < count) ∧
  ((sm.map StmtEntry.idx).Pairwise (· < ·)) ∧
  (∀ p : String,
    match alook orig p, alook sn p with
    | some o, some cur => List.Perm o (stmtAssigned sm p ++ cur)
    | none, none => stmtAssigned sm p = []
    | _, _ => False)

/-- C3 counterexample support: environment whose function lookup always
fails (no enclosing `FunctionDefinition` found — the caught `IndexError`
path). -/
def c3env : WEnv :=
  { sourceNodes := [(0, "p")], branchNodes := [("p", [])],
    fnLookup := fun _ _ => none }

/-- Two expanded entries; the second has offset `(2, 5)`, inside the only
statement candidate `(0, 10)`. -/
def c3sm : List (Option SMRow) :=
  [some ⟨some 50, some 1, some 0, some "-"⟩,
   some ⟨some 2, some 3, some 0, some "-"⟩]

/-- Walk start state with the single candidate `(0, 10)` for path `"p"`. -/
def c3st0 : WSt :=
  { opQ := ["STOP", "STOP", "STOP"], pcList := [], count := 0, pc := 0,
    firstRevert := none, revertMap := [], stmtNodes := [("p", [(0, 10)])],
    stmtMap := [], branchActive := [("p", [])], branchSet := [("p", [])] }

/-- A minimal successful run for the C3-amended witness. -/
def c3wInput : GCInput :=
  { sourceMapStr := "0:5:0:-", opcodesStr := "STOP STOP",
    nodes := [(0, "p")], stmtNodesIn := [("p", [(0, 5)])],
    branchNodesIn := [("p", [])],
    fnLookup := fun _ _ => some "f()", revertFn := fun _ _ => some [] }

/-- `splitChars` never returns an empty list of pieces. -/
theorem splitChars_ne_nil (sep : Char) (l : List Char) : splitChars sep l ≠ [] := by
  cases l with
  | nil => simp [splitChars]
  | cons c rest =>
    simp only [splitChars]
    split
    · simp
    · cases h : splitChars sep rest <;> simp

/-! ## Shared lemmas, then the claim theorems (C1–C10) -/

theorem except_bind_ok {α β ε : Type} (a : α) (f : α → Except ε β) :
    (Except.ok a >>= f) = f a := rfl

theorem except_bind_err {α β ε : Type} (e : ε) (f : α → Except ε β) :
    ((Except.error e : Except ε α) >>= f) = Except.error e := rfl

theorem except_pure {α ε : Type} (a : α) : (pure a : Except ε α) = Except.ok a := rfl

theorem alook_nil {α β : Type} [DecidableEq α] (k : α) :
    alook ([] : List (α × β)) k = none := rfl

theorem alook_cons {α β : Type} [DecidableEq α] (p : α × β) (l : List (α × β)) (k : α) :
    alook (p :: l) k = if p.1 = k then some p.2 else alook l k := by
  unfold alook
  by_cases h : p.1 = k <;> simp [List.find?, h]

theorem aupd_pos {α β : Type} [DecidableEq α] (l : List (α × β)) (k : α) (v : β)
    (h : (l.any fun q => decide (q.1 = k)) = true) :
    aupd l k v = l.map (fun p => if p.1 = k then (k, v) else p) := by
  simp [aupd, h]

theorem aupd_neg {α β : Type} [DecidableEq α] (l : List (α × β)) (k : α) (v : β)
    (h : (l.any fun q => decide (q.1 = k)) = false) :
    aupd l k v = l ++ [(k, v)] := by
  simp only [aupd, h, Bool.false_eq_true, if_false]

theorem alook_map_upd_ne {α β : Type} [DecidableEq α] (l : List (α × β)) (k k' : α)
    (v : β) (hne : k' ≠ k) :
    alook (l.map (fun p => if p.1 = k then (k, v) else p)) k' = alook l k' := by
  induction l with
  | nil => rfl
  | cons p rest ih =>
    simp only [List.map_cons, alook_cons]
    by_cases hp : p.1 = k
    · simp only [if_pos hp]
      have h1 : ¬(k = k') := fun h => hne h.symm
      have h2 : ¬(p.1 = k') := by rw [hp]; exact fun h => hne h.symm
      simp only [if_neg h1, if_neg h2, ih]
    · simp only [if_neg hp]
      by_cases hp' : p.1 = k'
      · simp [hp']
      · simp only [if_neg hp', ih]

theorem alook_append_single_ne {α β : Type} [DecidableEq α] (l : List (α × β))
    (k k' : α) (v : β) (hne : k' ≠ k) :
    alook (l ++ [(k, v)]) k' = alook l k' := by
  unfold alook
  rw [List.find?_append]
  have h1 : List.find? (fun p => decide (p.1 = k')) [(k, v)] = none := by
    have hd : (decide (k = k')) = false := decide_eq_false (fun h => hne h.symm)
    simp [List.find?, hd]
  cases hf : List.find? (fun p => decide (p.1 = k')) l <;> simp [h1]

theorem alook_aupd_self {α β : Type} [DecidableEq α] (l : List (α × β)) (k : α) (v : β) :
    alook (aupd l k v) k = some v := by
  induction l with
  | nil => simp [aupd, alook_cons]
  | cons p rest ih =>
    cases hr : ((p :: rest).any fun q => decide (q.1 = k)) with
    | true =>
      rw [aupd_pos _ _ _ hr]
      simp only [List.map_cons]
      by_cases hp : p.1 = k
      · rw [if_pos hp, alook_cons, if_pos rfl]
      · rw [if_neg hp, alook_cons, if_neg hp]
        have hr' : (rest.any fun q => decide (q.1 = k)) = true := by
          simp only [List.any_cons, Bool.or_eq_true] at hr
          rcases hr with h | h
          · exact absurd (by simpa using h) hp
          · exact h
        rw [← aupd_pos rest k v hr']
        exact ih
    | false =>
      rw [aupd_neg _ _ _ hr]
      simp only [List.any_cons, Bool.or_eq_false_iff] at hr
      have hp : ¬(p.1 = k) := by simpa using hr.1
      rw [List.cons_append, alook_cons, if_neg hp, ← aupd_neg rest k v hr.2]
      exact ih

theorem alook_aupd_ne {α β : Type} [DecidableEq α] (l : List (α × β)) (k k' : α) (v : β)
    (hne : k' ≠ k) : alook (aupd l k v) k' = alook l k' := by
  cases hr : (l.any fun q => decide (q.1 = k)) with
  | true => rw [aupd_pos _ _ _ hr, alook_map_upd_ne _ _ _ _ hne]
  | false => rw [aupd_neg _ _ _ hr, alook_append_single_ne _ _ _ _ hne]

/-! ## C9: decoder length preservation -/

theorem expandRows_length : ∀ (parts : List String) (rows : List (Option SMRow)),
    expandRows parts = Except.ok rows → rows.length = parts.length := by
  intro parts
  induction parts with
  | nil =>
    intro rows h
    simp only [expandRows] at h
    cases h
    rfl
  | cons i rest ih =>
    intro rows h
    simp only [expandRows] at h
    split at h
    · cases hr : expandRows rest with
      | error e => rw [hr, except_bind_err] at h; simp at h
      | ok tail =>
        rw [hr, except_bind_ok] at h
        cases h
        simp [ih tail hr]
    · cases he : expand_row i with
      | error e => rw [he, except_bind_err] at h; simp at h
      | ok r =>
        rw [he, except_bind_ok] at h
        cases hr : expandRows rest with
        | error e => rw [hr, except_bind_err] at h; simp at h
        | ok tail =>
          rw [hr, except_bind_ok] at h
          cases h
          simp [ih tail hr]

theorem expandFill_length : ∀ (rows : List (Option SMRow)) (prev : Option SMRow)
    (out : List (Option SMRow)), expandFill prev rows = Except.ok out →
    out.length = rows.length := by
  intro rows
  induction rows with
  | nil =>
    intro prev out h
    simp only [expandFill] at h
    cases h
    rfl
  | cons r rest ih =>
    intro prev out h
    cases r with
    | none =>
      simp only [expandFill] at h
      cases hr : expandFill prev rest with
      | error e => rw [hr, except_bind_err] at h; simp at h
      | ok tail =>
        rw [hr, except_bind_ok] at h
        cases h
        simp [ih prev tail hr]
    | some rr =>
      simp only [expandFill] at h
      split at h
      · cases prev with
        | none => simp at h
        | some p =>
          simp only at h
          cases hr : expandFill (some (rr.fillFrom p)) rest with
          | error e => rw [hr, except_bind_err] at h; simp at h
          | ok tail =>
            rw [hr, except_bind_ok] at h
            cases h
            simp [ih _ tail hr]
      · cases hr : expandFill (some rr) rest with
        | error e => rw [hr, except_bind_err] at h; simp at h
        | ok tail =>
          rw [hr, except_bind_ok] at h
          cases h
          simp [ih _ tail hr]

/-- C9 (confirmed): for every compressed source map string, the sequence
returned by `expand_source_map` has length equal to the number of
`';'`-separated entries of the input string. -/
theorem c9_expand_len (s : String) (l : List (Option SMRow))
    (h : expand_source_map s = Except.ok l) :
    l.length = (pySplit s ';').length := by
  unfold expand_source_map at h
  cases hr : expandRows (pySplit s ';') with
  | error e => rw [hr] at h; simp [except_bind_err] at h
  | ok rows =>
    rw [hr, except_bind_ok] at h
    have hlen := expandRows_length _ _ hr
    match rows, hlen with
    | [], hlen =>
      simp only at h
      cases h
      simp [← hlen]
    | r0 :: rest, hlen =>
      simp only at h
      cases hf : expandFill r0 rest with
      | error e => rw [hf] at h; simp [except_bind_err] at h
      | ok tail =>
        rw [hf, except_bind_ok] at h
        cases h
        have := expandFill_length _ _ _ hf
        simp only [List.length_cons, this]
        rw [← hlen]
        simp

/-- Witness for C9 at a concrete three-entry map. -/
theorem c9_expand_len_witness :
    expand_source_map "0:5:0:-;;8:2" =
      Except.ok [some ⟨some 0, some 5, some 0, some "-"⟩,
                 some ⟨some 0, some 5, some 0, some "-"⟩,
                 some ⟨some 8, some 2, some 0, some "-"⟩] ∧
    ([some (⟨some 0, some 5, some 0, some "-"⟩ : SMRow),
      some ⟨some 0, some 5, some 0, some "-"⟩,
      some ⟨some 8, some 2, some 0, some "-"⟩].length
        = (pySplit "0:5:0:-;;8:2" ';').length) :=
  ⟨rfl, c9_expand_len "0:5:0:-;;8:2" _ rfl⟩

/-! ## C1: field inheritance in the decoder -/

theorem expandRows_getD : ∀ (parts : List String) (rows : List (Option SMRow))
    (i : Nat) (pi : String), expandRows parts = Except.ok rows →
    parts[i]? = some pi →
    (pi = "" → rows[i]? = some none) ∧
    (∀ raw, pi ≠ "" → expand_row pi = Except.ok raw → rows[i]? = some (some raw)) := by
  intro parts
  induction parts with
  | nil => intro rows i pi h hp; simp at hp
  | cons q rest ih =>
    intro rows i pi h hp
    simp only [expandRows] at h
    split at h
    · rename_i hq
      cases hr : expandRows rest with
      | error e => rw [hr, except_bind_err] at h; simp at h
      | ok tail =>
        rw [hr, except_bind_ok] at h
        cases h
        cases i with
        | zero =>
          simp only [List.getElem?_cons_zero, Option.some_inj] at hp
          constructor
          · intro; simp
          · intro raw hne _; exact absurd (hp ▸ hq) hne
        | succ j =>
          simp only [List.getElem?_cons_succ] at hp ⊢
          exact ih tail j pi hr hp
    · rename_i hq
      cases he : expand_row q with
      | error e => rw [he, except_bind_err] at h; simp at h
      | ok r =>
        rw [he, except_bind_ok] at h
        cases hr : expandRows rest with
        | error e => rw [hr, except_bind_err] at h; simp at h
        | ok tail =>
          rw [hr, except_bind_ok] at h
          cases h
          cases i with
          | zero =>
            simp only [List.getElem?_cons_zero, Option.some_inj] at hp
            subst hp
            constructor
            · intro hc; exact absurd hc hq
            · intro raw _ hraw
              rw [he] at hraw
              cases hraw
              simp
          | succ j =>
            simp only [List.getElem?_cons_succ] at hp ⊢
            exact ih tail j pi hr hp

theorem expandFill_getD : ∀ (rows : List (Option SMRow)) (prev : Option SMRow)
    (out : List (Option SMRow)) (i : Nat), expandFill prev rows = Except.ok out →
    i < rows.length →
    (rows[i]? = some none →
      out[i]? = some (if i = 0 then prev else out.getD (i - 1) none)) ∧
    (∀ r, rows[i]? = some (some r) →
      (r.hasNone = false → out[i]? = some (some r)) ∧
      (r.hasNone = true → ∃ p, (if i = 0 then prev else out.getD (i - 1) none) = some p ∧
        out[i]? = some (some (r.fillFrom p)))) := by
  intro rows
  induction rows with
  | nil => intro prev out i h hi; simp at hi
  | cons r rest ih =>
    intro prev out i h hi
    cases r with
    | none =>
      simp only [expandFill] at h
      cases hr : expandFill prev rest with
      | error e => rw [hr, except_bind_err] at h; simp at h
      | ok tail =>
        rw [hr, except_bind_ok] at h
        cases h
        cases i with
        | zero =>
          constructor
          · intro; simp
          · intro rr hrr; simp at hrr
        | succ j =>
          simp only [List.getElem?_cons_succ]
          have hj : j < rest.length := by simpa using hi
          have base := ih prev tail j hr hj
          cases j with
          | zero =>
            simpa using base
          | succ j' =>
            have h1 : (prev :: tail).getD (j' + 2 - 1) none = tail.getD (j' + 1 - 1) none := by
              simp [List.getD]
            simpa [h1] using base
    | some rr =>
      simp only [expandFill] at h
      split at h
      · rename_i hN
        cases prev with
        | none => simp at h
        | some p =>
          simp only at h
          cases hr : expandFill (some (rr.fillFrom p)) rest with
          | error e => rw [hr, except_bind_err] at h; simp at h
          | ok tail =>
            rw [hr, except_bind_ok] at h
            cases h
            cases i with
            | zero =>
              constructor
              · intro hz; simp at hz
              · intro r2 hr2
                simp only [List.getElem?_cons_zero, Option.some_inj] at hr2
                cases hr2
                constructor
                · intro hp; rw [hN] at hp; simp at hp
                · intro _
                  exact ⟨p, by simp, by simp⟩
            | succ j =>
              simp only [List.getElem?_cons_succ]
              have hj : j < rest.length := by simpa using hi
              have base := ih (some (rr.fillFrom p)) tail j hr hj
              cases j with
              | zero =>
                simpa using base
              | succ j' =>
                have h1 : (some (rr.fillFrom p) :: tail).getD (j' + 2 - 1) none
                    = tail.getD (j' + 1 - 1) none := by
                  simp [List.getD]
                simpa [h1] using base
      · rename_i hN
        cases hr : expandFill (some rr) rest with
        | error e => rw [hr, except_bind_err] at h; simp at h
        | ok tail =>
          rw [hr, except_bind_ok] at h
          cases h
          cases i with
          | zero =>
            constructor
            · intro hz; simp at hz
            · intro r2 hr2
              simp only [List.getElem?_cons_zero, Option.some_inj] at hr2
              cases hr2
              constructor
              · intro _; simp
              · intro hp
                rw [hp] at hN
                simp at hN
          | succ j =>
            simp only [List.getElem?_cons_succ]
            have hj : j < rest.length := by simpa using hi
            have base := ih (some rr) tail j hr hj
            cases j with
            | zero =>
              simpa using base
            | succ j' =>
              have h1 : (some rr :: tail).getD (j' + 2 - 1) none
                  = tail.getD (j' + 1 - 1) none := by
                simp [List.getD]
              simpa [h1] using base

/-- C1 counterexample: in `"1:2:3:o;4:5:6:"` the first entry supplies all
four fields, and the second entry's fourth field is present but empty.
The expansion leaves that field as the empty string instead of inheriting
`"o"` from the preceding entry: the jump-type position does *not*
inherit when the field is explicitly empty. -/
theorem c1_counterexample :
    expand_source_map "1:2:3:o;4:5:6:" =
      Except.ok [some ⟨some 1, some 2, some 3, some "o"⟩,
                 some ⟨some 4, some 5, some 6, some ""⟩] ∧
    (some "" : Option String) ≠ some "o" :=
  ⟨rfl, by decide⟩

/-- C1 (amended): in the sequence returned by `expand_source_map`, an
entirely empty later entry equals the immediately preceding expanded
entry, and a later entry with an absent (`None`) field — for the first
three positions this means empty or absent, for the jump-type position
absent only, since an explicitly empty fourth field is kept as `""` —
inherits exactly the missing fields from the immediately preceding
expanded entry via `SMRow.fillFrom`. -/
theorem c1_amended (s : String) (l : List (Option SMRow)) (i : Nat) (pi : String)
    (h : expand_source_map s = Except.ok l) (hi : 0 < i)
    (hpart : (pySplit s ';')[i]? = some pi) :
    (pi = "" → l[i]? = some (l.getD (i - 1) none)) ∧
    (∀ raw, pi ≠ "" → expand_row pi = Except.ok raw →
      (raw.hasNone = false → l[i]? = some (some raw)) ∧
      (raw.hasNone = true → ∃ p, l.getD (i - 1) none = some p ∧
        l[i]? = some (some (raw.fillFrom p)))) := by
  unfold expand_source_map at h
  cases hr : expandRows (pySplit s ';') with
  | error e => rw [hr, except_bind_err] at h; simp at h
  | ok rows =>
    rw [hr, except_bind_ok] at h
    have hlen := expandRows_length _ _ hr
    have hbound : i < (pySplit s ';').length := by
      exact List.getElem?_eq_some_iff.mp (by exact hpart) |>.1
    match rows, hlen, hr with
    | [], hlen, hr =>
      rw [← hlen] at hbound
      simp at hbound
    | r0 :: rest, hlen, hr =>
      simp only at h
      cases hf : expandFill r0 rest with
      | error e => rw [hf, except_bind_err] at h; simp at h
      | ok tail =>
        rw [hf, except_bind_ok] at h
        cases h
        obtain ⟨j, rfl⟩ : ∃ j, i = j + 1 := ⟨i - 1, by omega⟩
        have hjb : j < rest.length := by
          rw [← hlen] at hbound
          simpa using hbound
        have hrows := expandRows_getD _ _ (j + 1) pi hr hpart
        simp only [List.getElem?_cons_succ] at hrows
        have hfill := expandFill_getD rest r0 tail j hf hjb
        have hprev : (r0 :: tail).getD (j + 1 - 1) none
            = (if j = 0 then r0 else tail.getD (j - 1) none) := by
          cases j with
          | zero => simp [List.getD]
          | succ j' => simp [List.getD]
        constructor
        · intro hpi
          have h1 := hrows.1 hpi
          have h2 := hfill.1 h1
          simp only [List.getElem?_cons_succ, hprev]
          exact h2
        · intro raw hne hraw
          have h1 := hrows.2 raw hne hraw
          have h2 := hfill.2 raw h1
          constructor
          · intro hfalse
            simp only [List.getElem?_cons_succ]
            exact h2.1 hfalse
          · intro htrue
            obtain ⟨p, hp1, hp2⟩ := h2.2 htrue
            refine ⟨p, ?_, ?_⟩
            · rw [hprev]; exact hp1
            · simp only [List.getElem?_cons_succ]; exact hp2

/-- Witness for C1-amended at `"1:2:3:o;::7"`: the third and fourth fields
of the second entry are empty/absent in a way that inherits positions
0, 1 and 3 and keeps the supplied position 2. -/
theorem c1_amended_witness :
    expand_source_map "1:2:3:o;::7" =
      Except.ok [some ⟨some 1, some 2, some 3, some "o"⟩,
                 some ⟨some 1, some 2, some 7, some "o"⟩] ∧
    (0 : Nat) < 1 ∧
    ((pySplit "1:2:3:o;::7" ';')[1]? = some "::7") ∧
    (∀ raw, "::7" ≠ "" → expand_row "::7" = Except.ok raw →
      (raw.hasNone = false →
        [some (⟨some 1, some 2, some 3, some "o"⟩ : SMRow),
         some ⟨some 1, some 2, some 7, some "o"⟩][1]? = some (some raw)) ∧
      (raw.hasNone = true → ∃ p,
        [some (⟨some 1, some 2, some 3, some "o"⟩ : SMRow),
         some ⟨some 1, some 2, some 7, some "o"⟩].getD 0 none = some p ∧
        [some (⟨some 1, some 2, some 3, some "o"⟩ : SMRow),
         some ⟨some 1, some 2, some 7, some "o"⟩][1]? = some (some (raw.fillFrom p)))) :=
  ⟨rfl, by decide, rfl,
    (c1_amended "1:2:3:o;::7" _ 1 "::7" rfl (by decide) rfl).2⟩

/-- C10 (confirmed): whatever the source map string, the AST data and the
candidate sets, an empty opcode string makes `generate_coverage_data`
return three empty maps immediately — the quantification over every other
input shows the source map and tree are never consulted. -/
theorem c10_empty_opcodes (smap : String) (nodes : List (Int × String))
    (stmtN : List (String × List (Int × Int)))
    (brN : List (String × List BranchNode))
    (fnL : Int → (Int × Int) → Option String)
    (revF : String → String → Option (List RevNode)) :
    generate_coverage_data
      { sourceMapStr := smap, opcodesStr := "", nodes := nodes,
        stmtNodesIn := stmtN, branchNodesIn := brN,
        fnLookup := fnL, revertFn := revF } =
      Except.ok (([] : List PCItem), ([] : List StmtEntry), ([] : List BranchEntry)) := rfl

/-- C5 counterexample: there is no `MalformedSourceMap` anywhere in the
code (witness the exhaustive `PyErr` model of its failure modes).  On a
count mismatch with more entries than opcode tokens the walk dies peeking
the exhausted opcode deque with an uncaught `IndexError`; on an entirely
empty leading entry it dies subscripting the Python `None` row with an
uncaught `TypeError` — opaque crashes, not a structured result; and on a
count mismatch with *fewer* entries than opcode tokens it does not fail
at all, returning ordinary data. -/
theorem c5_counterexample :
    generate_coverage_data c5MismatchInput = Except.error PyErr.indexError ∧
    generate_coverage_data c5EmptyLeadInput = Except.error PyErr.typeError ∧
    generate_coverage_data c5FewerInput =
      Except.ok (([{ op := "STOP", pc := 0 }] : List PCItem), ([] : List StmtEntry),
        ([] : List BranchEntry)) :=
  ⟨rfl, rfl, rfl⟩

/-- C5 (amended): the code defines no `MalformedSourceMap` and never
reports a structured failure result, and the count-mismatch behaviour is
direction-dependent.  (1) Whenever the opcode deque is exhausted at the
head pop of a step, and (2) whenever a single token is left when a step
needs its `opcodes[0]` peek, the walk dies with an uncaught `IndexError`
— so a source map with more entries than the opcode stream can serve
aborts the build (concrete full run `c5MismatchInput2`).  (3) The
`while source_map:` loop instead ends successfully the moment the source
map is exhausted, whatever opcodes remain — so a source map with *fewer*
entries than opcodes completes silently, ignoring the surplus (concrete
full run `c5FewerInput`, one entry against three tokens).  An entirely
empty leading entry, or an empty un-inheritable leading start field,
aborts with an uncaught `TypeError`. -/
theorem c5_amended :
    (∀ (env : WEnv) (source : Option SMRow) (st : WSt), st.opQ = [] →
      walkStep env source st = Except.error PyErr.indexError) ∧
    (∀ (env : WEnv) (row : SMRow) (st : WSt) (op : String), st.opQ = [op] →
      walkStep env (some row) st = Except.error PyErr.indexError) ∧
    (∀ (env : WEnv) (st : WSt), walkLoop env [] st = Except.ok st) ∧
    generate_coverage_data c5MismatchInput2 = Except.error PyErr.indexError ∧
    generate_coverage_data c5FewerInput =
      Except.ok ([{ op := "STOP", pc := 0 }], [], []) ∧
    generate_coverage_data c5AllEmptyInput = Except.error PyErr.typeError ∧
    generate_coverage_data c5EmptyFieldInput = Except.error PyErr.typeError := by
  refine ⟨?_, ?_, ?_, rfl, rfl, rfl, rfl⟩
  · intro env source st h
    simp [walkStep, h]
  · intro env row st op h
    simp [walkStep, h, walkStepB, walkStepC]
  · intro env st
    rfl

/-- Witness for C5-amended: the two opcode-exhaustion crashes and the
silent loop termination at concrete states. -/
theorem c5_amended_witness :
    walkStep c5wEnv none c5wSt0 = Except.error PyErr.indexError ∧
    walkStep c5wEnv (some ⟨some 0, some 0, some (-1), some "-"⟩) c5wSt1 =
      Except.error PyErr.indexError ∧
    walkLoop c5wEnv [] c5wSt1 = Except.ok c5wSt1 :=
  ⟨c5_amended.1 c5wEnv none c5wSt0 rfl,
   c5_amended.2.1 c5wEnv ⟨some 0, some 0, some (-1), some "-"⟩ c5wSt1 "STOP" rfl,
   c5_amended.2.2.1 c5wEnv c5wSt1⟩

/-- C7 (confirmed): branch extraction on `require(a || b)` yields exactly
the two leaf operands, both with `jump = true`; `a` is non-rightmost and
takes its flag from the enclosing `||` (whose operator makes
`_check_left_operator` return true), `b` is rightmost and inherits the
require-derived `jump = true`. -/
theorem c7_require_or :
    get_recursive_branches c7base = Except.ok [(c7a, true), (c7b, true)] ∧
    is_rightmost_operation c7base.roots c7a = false ∧
    check_left_operator c7base.roots c7a = some true ∧
    is_rightmost_operation c7base.roots c7b = true := by
  refine ⟨rfl, ?_, ?_, ?_⟩ <;> decide

/-- C8 (code bug): the walk resolves the branch at offset `(10, 20)` into
the pair (armed step 0, `JUMPI` step 1), and no step carries a function
attribution.  The finalizer must therefore take its fallback lookup — but
that fallback subscripts `source_nodes`, a dict keyed by contract *id*
(an int), with the *path* string, which can never be a key: the whole
build aborts with an uncaught `KeyError` instead of emitting the branch
entry the spec promises (line 334 shows the intended value-search that
line 361 fails to perform). -/
theorem c8_finalizer_keyerror :
    (walkLoop c8env c8sm c8st0).map
        (fun s => (alook s.branchSet "p", s.pcList.map (fun i => i.fn))) =
      Except.ok (some [((10, 20), 0, 1)], [none, none, none]) ∧
    generate_coverage_data c8Input = Except.error PyErr.keyError :=
  ⟨rfl, rfl⟩

/-- C2 counterexample: step 1 has opcode `JUMPI`, carries path `"p"`, and
path `"p"` has the non-empty active set `[((10, 20), 0)]` — but because
its source offset is `-1` the walk `continue`s before the branch logic,
so nothing is recorded into the resolved set and the active set is *not*
emptied after the step. -/
theorem c2_counterexample :
    (walkLoop c2env c2sm c2st0).map
        (fun s => (alook s.branchActive "p", alook s.branchSet "p",
          s.pcList[1]?.map (fun i => (i.op, i.path, i.offset)))) =
      Except.ok (some [((10, 20), 0)], some [],
        some ("JUMPI", some "p", none)) ∧
    ([((10, 20), 0)] : List ((Int × Int) × Nat)) ≠ [] :=
  ⟨rfl, by decide⟩

theorem alook_foldl_aupd_not_mem {α β γ : Type} [DecidableEq α] (g : β → γ) :
    ∀ (l : List (α × β)) (init : List (α × γ)) (k : α), k ∉ l.map Prod.fst →
      alook (l.foldl (fun acc q => aupd acc q.1 (g q.2)) init) k = alook init k := by
  intro l
  induction l with
  | nil => intro init k _; rfl
  | cons q rest ih =>
    intro init k hk
    simp only [List.map_cons, List.mem_cons, not_or] at hk
    simp only [List.foldl_cons]
    rw [ih _ k hk.2, alook_aupd_ne _ _ _ _ hk.1]

theorem alook_foldl_aupd_mem {α β γ : Type} [DecidableEq α] (g : β → γ) :
    ∀ (l : List (α × β)) (init : List (α × γ)), (l.map Prod.fst).Nodup →
      ∀ pr ∈ l, alook (l.foldl (fun acc q => aupd acc q.1 (g q.2)) init) pr.1
        = some (g pr.2) := by
  intro l
  induction l with
  | nil => intro init _ pr hpr; simp at hpr
  | cons q rest ih =>
    intro init hnd pr hpr
    simp only [List.map_cons, List.nodup_cons] at hnd
    simp only [List.foldl_cons]
    rcases List.mem_cons.mp hpr with rfl | hmem
    · rw [alook_foldl_aupd_not_mem g rest _ pr.1 hnd.1, alook_aupd_self]
    · exact ih _ hnd.2 pr hmem

theorem tryStatement_value (env : WEnv) (cid : Int) (path : String) (offv : Int × Int)
    (prevItem : Option PCItem) (item : PCItem)
    (sn : List (String × List (Int × Int))) (sm : List StmtEntry) (c : Nat) :
    (tryStatement env cid path offv prevItem item sn sm c).1.value = item.value := by
  unfold tryStatement
  repeat' split
  all_goals rfl

theorem tryStatement_path (env : WEnv) (cid : Int) (path : String) (offv : Int × Int)
    (prevItem : Option PCItem) (item : PCItem)
    (sn : List (String × List (Int × Int))) (sm : List StmtEntry) (c : Nat) :
    (tryStatement env cid path offv prevItem item sn sm c).1.path = item.path := by
  unfold tryStatement
  repeat' split
  all_goals rfl

/-- C2 (amended): at every walk step whose opcode is `JUMPI`, whose
contract id and source offset are both attributed (neither is `-1`) and
whose path has a non-empty active-branch set, every currently active
branch offset is recorded into the resolved set paired with
(its armed step index, the current step index `st.pcList.length`), and the
path's active set is empty after the step. -/
theorem c2_amended (env : WEnv) (st : WSt) (row : SMRow) (cid : Int) (path : String)
    (s0v s1v : Int) (o2 : String) (opRest : List String)
    (active : List ((Int × Int) × Nat)) (bset : List ((Int × Int) × (Nat × Nat)))
    (hop : st.opQ = "JUMPI" :: o2 :: opRest)
    (hpk : o2.data.take 2 ≠ ['0', 'x'])
    (hs2 : row.s2 = some cid) (hcid : cid ≠ -1)
    (hsn : alook env.sourceNodes cid = some path)
    (hs0 : row.s0 = some s0v) (hs0v : s0v ≠ -1)
    (hs1 : row.s1 = some s1v)
    (hact : alook st.branchActive path = some active) (hne : active ≠ [])
    (hbs : alook st.branchSet path = some bset)
    (hkeys : (active.map Prod.fst).Nodup) :
    (walkStep env (some row) st).map
        (fun st' => (alook st'.branchActive path, alook st'.branchSet path)) =
      Except.ok (some [],
        some (active.foldl
          (fun acc pr => aupd acc pr.1 (pr.2, st.pcList.length)) bset)) ∧
    ∀ pr ∈ active,
      alook (active.foldl
          (fun acc pr => aupd acc pr.1 (pr.2, st.pcList.length)) bset) pr.1
        = some (pr.2, st.pcList.length) := by
  have harm : (st.pcList ++ [({ op := "JUMPI", pc := st.pc } : PCItem)]).length - 1
      = st.pcList.length := by simp
  constructor
  · by_cases h3 : row.s3 ≠ some "-" <;>
    · simp only [walkStep, hop, walkStepB, walkStepC, walkStepD, walkStepE, walkStepF,
        h3, hpk, hs2, hcid, hsn, hs0, hs0v, hs1, hact, hbs, hne, tryStatement_value,
        Bool.and_eq_true, decide_eq_true_eq, String.reduceEq, Bool.and_false,
        Bool.false_eq_true, if_false, if_true, ite_true, ite_false, ne_eq,
        not_false_iff, not_true, reduceIte, and_true, and_false, true_and, false_and,
        if_neg, commitStep, harm, Except.map]
      simp only [alook_aupd_self]
  · intro pr hpr
    exact alook_foldl_aupd_mem (fun b => (b, st.pcList.length)) active bset hkeys pr hpr

/-- Witness for C2-amended: a concrete `JUMPI` step resolving the single
active branch into the pair (armed index 0, current index 1). -/
theorem c2_amended_witness :
    (walkStep c2wEnv (some ⟨some 30, some 1, some 0, some "-"⟩) c2wSt).map
        (fun st' => (alook st'.branchActive "p", alook st'.branchSet "p")) =
      Except.ok (some [], some [((10, 20), 0, 1)]) ∧
    ∀ pr ∈ ([((10, 20), 0)] : List ((Int × Int) × Nat)),
      alook [((10, 20), (0, 1))] pr.1 = some (pr.2, 1) :=
  c2_amended c2wEnv c2wSt ⟨some 30, some 1, some 0, some "-"⟩ 0 "p" 30 1 "STOP" []
    [((10, 20), 0)] [] rfl (by decide) rfl (by decide) rfl rfl (by decide) rfl rfl
    (by decide) rfl (by decide)

/-- C6 counterexample: the step that carries the literal value `"0x1"`
(equal to the recorded `first_revert` target) and is followed by a `JUMP`
sits at index 5 of the instruction list, but the value appended to the
revert candidate list for `("p", "f()")` is `6 = len(pc_list)` — the index
of the *following* jump step, not the step's own index. -/
theorem c6_counterexample :
    (walkLoop c6env c6sm c6st0).map
        (fun s => (s.revertMap, s.firstRevert,
          s.pcList[5]?.map (fun i => (i.op, i.value, i.fn)),
          s.pcList[6]?.map (fun i => i.op))) =
      Except.ok ([(("p", "f()"), [6])], some "0x1",
        some ("PUSH1", some "0x1", some "f()"), some "JUMP") ∧
    ([6] : List Nat) ≠ [5] :=
  ⟨rfl, by decide⟩

theorem prev_lookback {α : Type} (l1 : List α) (a b : α) :
    (if ((l1 ++ [a]) ++ [b]).length ≥ 2
      then ((l1 ++ [a]) ++ [b])[((l1 ++ [a]) ++ [b]).length - 2]? else none) = some a := by
  have hlen : ((l1 ++ [a]) ++ [b]).length = l1.length + 2 := by simp
  rw [if_pos (by omega), hlen]
  simp only [Nat.add_sub_cancel]
  rw [List.getElem?_append, if_pos (show l1.length < (l1 ++ [a]).length by simp)]
  exact List.getElem?_concat_length l1 a

/-- C6 (amended): at a correlation step that carries a push value equal to
the recorded `first_revert` target and whose next opcode is a jump
instruction, the value appended to the revert candidate list for
(path, function) is `len(pc_list)` — one more than the step's own index
`st.pcList.length`, i.e. the index at which the following jump instruction
sits. -/
theorem lookback3 {α : Type} (l1 : List α) (a b : α)
    (h : l1.length < (l1 ++ [a, b]).length) :
    (l1 ++ [a, b])[l1.length] = a := by
  have h2 : (l1 ++ [a, b])[l1.length]? = some a := by
    rw [List.getElem?_append]
    simp
  rw [List.getElem?_eq_getElem h] at h2
  exact Option.some.inj h2

theorem c6_amended (env : WEnv) (st : WSt) (row : SMRow) (cid : Int) (path : String)
    (s0v s1v : Int) (op v nxt : String) (opRest : List String)
    (bnodes : List (Int × Int)) (w : Int)
    (plInit : List PCItem) (prevIt : PCItem) (f : String)
    (hop : st.opQ = op :: v :: nxt :: opRest)
    (hv : v.data.take 2 = ['0', 'x'])
    (hw : pyInt (String.mk (op.data.drop 4)) = some w)
    (hs2 : row.s2 = some cid) (hcid : cid ≠ -1)
    (hsn : alook env.sourceNodes cid = some path)
    (hs0 : row.s0 = some s0v) (hs0v : s0v ≠ -1)
    (hs1 : row.s1 = some s1v)
    (hact : alook st.branchActive path = some [])
    (hbn : alook env.branchNodes path = some bnodes)
    (hnb : (s0v, s0v + s1v) ∉ bnodes)
    (hpl : st.pcList = plInit ++ [prevIt])
    (hpo : prevIt.offset = some (s0v, s0v + s1v))
    (hpf : prevIt.fn = some f)
    (hfr : st.firstRevert = some v)
    (hnxt : nxt = "JUMP" ∨ nxt = "JUMPI") :
    (walkStep env (some row) st).map
        (fun st' => (st'.revertMap, st'.pcList.length)) =
      Except.ok (rAppend st.revertMap (path, f) (st.pcList.length + 1),
        st.pcList.length + 1) := by
  rcases hnxt with rfl | rfl <;>
  by_cases h3 : row.s3 ≠ some "-" <;>
  · simp only [walkStep, hop, walkStepB, walkStepC, walkStepD, walkStepE, walkStepF,
      tryStatement, h3, hv, hw, hs2, hcid, hsn, hs0, hs0v, hs1, hact, hbn, hnb,
      hfr, hpl, hpo, hpf, prev_lookback, Option.isNone_some, Bool.false_and,
      Bool.and_eq_true, decide_eq_true_eq, Bool.false_eq_true, if_false, if_true,
      ite_true, ite_false, ne_eq, not_false_iff, not_true, reduceIte, and_true,
      and_false, true_and, false_and, ne_self_iff_false, if_neg, not_false_eq_true,
      commitStep, Except.map, List.length_append, List.length_cons, List.length_nil,
      List.drop_succ_cons, List.drop_zero]
    simp [rAppend, lookback3, hpo, hpf, commitStep, Except.map]

/-- Witness for C6-amended: the push step sits at index 1 and the recorded
candidate index is 2 — the following `JUMP`'s index. -/
theorem c6_amended_witness :
    (walkStep c6wEnv (some ⟨some 100, some 10, some 0, some "-"⟩) c6wSt).map
        (fun st' => (st'.revertMap, st'.pcList.length)) =
      Except.ok (rAppend [] ("p", "f()") 2, 2) :=
  c6_amended c6wEnv c6wSt ⟨some 100, some 10, some 0, some "-"⟩ 0 "p" 100 10
    "PUSH1" "0x1" "JUMP" ["STOP"] [] 1 []
    { op := "DUP1", pc := 4, offset := some (100, 110), fn := some "f()" } "f()"
    rfl rfl rfl rfl (by decide) rfl rfl (by decide) rfl rfl rfl (by decide) rfl rfl
    rfl rfl (Or.inl rfl)

/-- C4 counterexample: the walk records exactly two shared-revert jump
steps for `("p", "f()")`, the function has three bare `revert()` nodes
with unmatched offsets, and the reconciliation pass does *not* complete:
`values[0]` on the exhausted candidate list raises an uncaught
`IndexError` that aborts the entire coverage build. -/
theorem c4_counterexample :
    (walkLoop c4env c4sm c4st0).map (fun s => s.revertMap) =
      Except.ok [(("p", "f()"), [6, 8])] ∧
    c4Input.revertFn "p" "f()" = some
      [{ offset := (900, 910), hasArgs := false },
       { offset := (920, 930), hasArgs := false },
       { offset := (940, 950), hasArgs := false }] ∧
    generate_coverage_data c4Input = Except.error PyErr.indexError :=
  ⟨rfl, rfl, rfl⟩

/-- C4 (amended): whenever the candidate list is exhausted and a further
bare `revert()` node's offset is absent from the pc list, the
reconciliation loop raises an uncaught `IndexError` (`values[0]` on an
empty list) instead of silently leaving the node unattributed; nothing is
fabricated, but the pass does not complete. -/
theorem c4_amended (pcl : List PCItem) (nodes : List RevNode) (n : RevNode)
    (hmem : n ∈ nodes)
    (hbare : ∀ m ∈ nodes, m.hasArgs = false)
    (habsent : ∀ m ∈ nodes, ∀ x ∈ pcl, x.offset ≠ some m.offset) :
    revertLoop pcl [] nodes = Except.error PyErr.indexError := by
  cases nodes with
  | nil => simp at hmem
  | cons m rest =>
    have hb := hbare m (List.mem_cons_self m rest)
    have ha : pcl.any (fun x => x.offset = some m.offset) = false := by
      rw [List.any_eq_false]
      intro x hx
      simp only [decide_eq_true_eq]
      exact habsent m (List.mem_cons_self m rest) x hx
    simp [revertLoop, hb, ha]

/-- Witness for C4-amended: one bare node, empty candidate list. -/
theorem c4_amended_witness :
    revertLoop [] [] [{ offset := (900, 910), hasArgs := false }] =
      Except.error PyErr.indexError :=
  c4_amended [] _ { offset := (900, 910), hasArgs := false }
    (List.mem_singleton.mpr rfl) (by decide) (by simp)

theorem stmtAssigned_append_entry (m : List StmtEntry) (e : StmtEntry) (q : String) :
    stmtAssigned (m ++ [e]) q =
      stmtAssigned m q ++ (if e.path = q then [e.offset] else []) := by
  unfold stmtAssigned
  rw [List.filter_append, List.map_append]
  congr 1
  by_cases h : e.path = q <;> simp [List.filter, h]

theorem TInv_init (orig : List (String × List (Int × Int))) : TInv orig orig [] 0 := by
  refine ⟨by simp, by simp, ?_⟩
  intro p
  cases h : alook orig p <;> simp [h, stmtAssigned]

theorem perm_cons_listErase {α : Type} [DecidableEq α] (a : α) :
    ∀ l : List α, a ∈ l → List.Perm l (a :: listErase l a) := by
  intro l
  induction l with
  | nil => intro h; simp at h
  | cons x rest ih =>
    intro h
    by_cases hx : x = a
    · subst hx
      simp [listErase]
    · have hmem : a ∈ rest := by
        rcases List.mem_cons.mp h with h1 | h1
        · exact absurd h1.symm hx
        · exact h1
      simp only [listErase, if_neg hx]
      exact (List.Perm.cons x (ih hmem)).trans (List.Perm.swap a x _)

theorem TInv_assign (orig sn : List (String × List (Int × Int))) (sm : List StmtEntry)
    (c : Nat) (path fname : String) (cands : List (Int × Int)) (stc : Int × Int)
    (hinv : TInv orig sn sm c)
    (hsn : alook sn path = some cands)
    (hstc : stc ∈ cands) :
    TInv orig (aupd sn path (listErase cands stc))
      (sm ++ [{ path := path, fn := fname, idx := c, offset := stc }]) (c + 1) := by
  obtain ⟨hA, hB, hC⟩ := hinv
  refine ⟨?_, ?_, ?_⟩
  · intro e he
    rcases List.mem_append.mp he with hm | hm
    · exact Nat.lt_succ_of_lt (hA e hm)
    · simp only [List.mem_singleton] at hm
      subst hm
      exact Nat.lt_succ_self c
  · rw [List.map_append, List.pairwise_append]
    refine ⟨hB, by simp, ?_⟩
    intro a ha b hb
    simp only [List.map_cons, List.map_nil, List.mem_singleton] at hb
    subst hb
    obtain ⟨e, he, rfl⟩ := List.mem_map.mp ha
    exact hA e he
  · intro q
    by_cases hq : q = path
    · subst hq
      rw [alook_aupd_self]
      have hCq := hC q
      rw [hsn] at hCq
      cases ho : alook orig q with
      | none => rw [ho] at hCq; exact absurd hCq (by simp)
      | some o =>
        rw [ho] at hCq
        simp only at hCq ⊢
        rw [stmtAssigned_append_entry]
        simp only [if_pos rfl, if_true]
        have h1 : List.Perm cands (stc :: listErase cands stc) :=
          perm_cons_listErase stc cands hstc
        have h2 : List.Perm o (stmtAssigned sm q ++ (stc :: listErase cands stc)) :=
          hCq.trans (List.Perm.append_left _ h1)
        have h3 : stmtAssigned sm q ++ (stc :: listErase cands stc) =
            (stmtAssigned sm q ++ [stc]) ++ listErase cands stc := by
          rw [List.append_assoc]; rfl
        rw [← h3]
        exact h2
    · rw [alook_aupd_ne _ _ _ _ hq]
      have hCq := hC q
      rw [stmtAssigned_append_entry]
      have hne : ({ path := path, fn := fname, idx := c, offset := stc } : StmtEntry).path
          ≠ q := fun hcon => hq (by simpa using hcon.symm)
      rw [if_neg hne, List.append_nil]
      exact hCq

theorem mem_of_find_eq_some {α : Type} {p : α → Bool} {l : List α} {a : α}
    (h : l.find? p = some a) : a ∈ l :=
  List.mem_of_find?_eq_some h

theorem tryStatement_inv (env : WEnv) (cid : Int) (path : String) (offv : Int × Int)
    (prevItem : Option PCItem) (item : PCItem)
    (orig sn : List (String × List (Int × Int))) (sm : List StmtEntry) (c : Nat)
    (hinv : TInv orig sn sm c) :
    TInv orig (tryStatement env cid path offv prevItem item sn sm c).2.1
      (tryStatement env cid path offv prevItem item sn sm c).2.2.1
      (tryStatement env cid path offv prevItem item sn sm c).2.2.2 := by
  unfold tryStatement
  repeat' split
  all_goals try exact hinv
  exact TInv_assign orig sn sm c path _ _ _ hinv (by assumption)
    (mem_of_find_eq_some (by assumption))

theorem walkStepF_inv (env : WEnv) (st : WSt) (cid : Int) (path : String)
    (offv : Int × Int) (pcl1 : List PCItem) (fr1 : Option String) (item5 : PCItem)
    (opQ2 : List String) (pc3 : Int)
    (bAct2 : List (String × List ((Int × Int) × Nat)))
    (bSet2 : List (String × List ((Int × Int) × (Nat × Nat))))
    (orig : List (String × List (Int × Int))) (st' : WSt)
    (h : walkStepF env st cid path offv pcl1 fr1 item5 opQ2 pc3 bAct2 bSet2
      = Except.ok st')
    (hinv : TInv orig st.stmtNodes st.stmtMap st.count) :
    TInv orig st'.stmtNodes st'.stmtMap st'.count := by
  have htry := tryStatement_inv env cid path offv
    (if pcl1.length ≥ 2 then pcl1[pcl1.length - 2]? else none) item5
    orig st.stmtNodes st.stmtMap st.count hinv
  unfold walkStepF at h
  try dsimp only at h
  rcases htt : tryStatement env cid path offv
      (if pcl1.length ≥ 2 then pcl1[pcl1.length - 2]? else none) item5
      st.stmtNodes st.stmtMap st.count with ⟨item6, sn2, sm2, c2⟩
  rw [htt] at h htry
  dsimp only at h htry
  repeat'
    first
      | (cases h; exact htry)
      | split at h
      | simp at h

theorem walkStepE_inv (env : WEnv) (st : WSt) (cid : Int) (path : String)
    (off : Int × Int) (pcl1 : List PCItem) (fr1 : Option String) (item5 : PCItem)
    (opQ2 : List String) (pc3 : Int)
    (orig : List (String × List (Int × Int))) (st' : WSt)
    (h : walkStepE env st cid path off pcl1 fr1 item5 opQ2 pc3 = Except.ok st')
    (hinv : TInv orig st.stmtNodes st.stmtMap st.count) :
    TInv orig st'.stmtNodes st'.stmtMap st'.count := by
  unfold walkStepE at h
  try dsimp only at h
  repeat'
    first
      | (exact walkStepF_inv _ _ _ _ _ _ _ _ _ _ _ _ _ _ h hinv)
      | split at h
      | simp at h

theorem walkStepD_inv (env : WEnv) (st : WSt) (srow : SMRow) (pcl1 : List PCItem)
    (fr1 : Option String) (item3 : PCItem) (opQ2 : List String) (pc3 : Int)
    (orig : List (String × List (Int × Int))) (st' : WSt)
    (h : walkStepD env st srow pcl1 fr1 item3 opQ2 pc3 = Except.ok st')
    (hinv : TInv orig st.stmtNodes st.stmtMap st.count) :
    TInv orig st'.stmtNodes st'.stmtMap st'.count := by
  unfold walkStepD at h
  try dsimp only at h
  repeat'
    first
      | (cases h; exact hinv)
      | (exact walkStepE_inv _ _ _ _ _ _ _ _ _ _ _ _ h hinv)
      | split at h
      | simp at h

theorem walkStepC_inv (env : WEnv) (st : WSt) (srow : SMRow) (opQ1 : List String)
    (pcl1 : List PCItem) (fr1 : Option String) (item1 : PCItem)
    (orig : List (String × List (Int × Int))) (st' : WSt)
    (h : walkStepC env st srow opQ1 pcl1 fr1 item1 = Except.ok st')
    (hinv : TInv orig st.stmtNodes st.stmtMap st.count) :
    TInv orig st'.stmtNodes st'.stmtMap st'.count := by
  unfold walkStepC at h
  try dsimp only at h
  repeat'
    first
      | (exact walkStepD_inv _ _ _ _ _ _ _ _ _ _ h hinv)
      | split at h
      | simp at h

theorem walkStepB_inv (env : WEnv) (source : Option SMRow) (st : WSt) (op : String)
    (opQ1 : List String)
    (orig : List (String × List (Int × Int))) (st' : WSt)
    (h : walkStepB env source st op opQ1 = Except.ok st')
    (hinv : TInv orig st.stmtNodes st.stmtMap st.count) :
    TInv orig st'.stmtNodes st'.stmtMap st'.count := by
  unfold walkStepB at h
  try dsimp only at h
  repeat'
    first
      | (exact walkStepC_inv _ _ _ _ _ _ _ _ _ h hinv)
      | split at h
      | simp at h

theorem walkStep_inv (env : WEnv) (source : Option SMRow) (st : WSt)
    (orig : List (String × List (Int × Int))) (st' : WSt)
    (h : walkStep env source st = Except.ok st')
    (hinv : TInv orig st.stmtNodes st.stmtMap st.count) :
    TInv orig st'.stmtNodes st'.stmtMap st'.count := by
  unfold walkStep at h
  try dsimp only at h
  repeat'
    first
      | (exact walkStepB_inv _ _ _ _ _ _ _ h hinv)
      | split at h
      | simp at h

theorem walkLoop_inv (env : WEnv) :
    ∀ (src : List (Option SMRow)) (st : WSt)
      (orig : List (String × List (Int × Int))) (st' : WSt),
      walkLoop env src st = Except.ok st' →
      TInv orig st.stmtNodes st.stmtMap st.count →
      TInv orig st'.stmtNodes st'.stmtMap st'.count := by
  intro src
  induction src with
  | nil =>
    intro st orig st' h hinv
    simp only [walkLoop] at h
    cases h
    exact hinv
  | cons s rest ih =>
    intro st orig st' h hinv
    simp only [walkLoop] at h
    cases hs : walkStep env s st with
    | error e => rw [hs, except_bind_err] at h; simp at h
    | ok st1 =>
      rw [hs, except_bind_ok] at h
      exact ih st1 orig st' h (walkStep_inv env s st orig st1 hs hinv)

theorem dedup_go_spec {α : Type} [DecidableEq α] :
    ∀ (l seen : List α), (dedupKeepFirst.go l seen).Nodup ∧
      ∀ a ∈ dedupKeepFirst.go l seen, a ∉ seen := by
  intro l
  induction l with
  | nil => intro seen; simp [dedupKeepFirst.go]
  | cons a rest ih =>
    intro seen
    by_cases ha : a ∈ seen
    · simp only [dedupKeepFirst.go, if_pos ha]
      exact ih seen
    · simp only [dedupKeepFirst.go, if_neg ha]
      obtain ⟨hnd, hout⟩ := ih (a :: seen)
      refine ⟨List.nodup_cons.mpr ⟨?_, hnd⟩, ?_⟩
      · intro hmem
        exact (hout a hmem) (List.mem_cons_self a seen)
      · intro b hb
        rcases List.mem_cons.mp hb with rfl | hb'
        · exact ha
        · intro hbs
          exact (hout b hb') (List.mem_cons_of_mem a hbs)

theorem dedupKeepFirst_nodup {α : Type} [DecidableEq α] (l : List α) :
    (dedupKeepFirst l).Nodup :=
  (dedup_go_spec l []).1

theorem lookupAll_alook {β : Type} (src : List (String × β)) :
    ∀ (paths : List String) (res : List (String × β)),
      lookupAll src paths = Except.ok res → paths.Nodup →
      ∀ p : String, alook res p = if p ∈ paths then alook src p else none := by
  intro paths
  induction paths with
  | nil =>
    intro res h _ p
    simp only [lookupAll] at h
    cases h
    simp [alook_nil]
  | cons q rest ih =>
    intro res h hnd p
    simp only [lookupAll] at h
    cases hq : alook src q with
    | none => rw [hq] at h; simp at h
    | some v =>
      simp only [hq] at h
      cases hr : lookupAll src rest with
      | error e => rw [hr, except_bind_err] at h; simp at h
      | ok tail =>
        rw [hr, except_bind_ok] at h
        cases h
        have hnd' := List.nodup_cons.mp hnd
        rw [alook_cons]
        by_cases hpq : p = q
        · subst hpq
          simp only [if_pos rfl, List.mem_cons, true_or, if_true]
          exact hq.symm
        · have : ¬(q = p) := fun hcon => hpq hcon.symm
          rw [if_neg this, ih tail hr hnd'.2 p]
          by_cases hpm : p ∈ rest
          · rw [if_pos hpm, if_pos (List.mem_cons_of_mem q hpm)]
          · rw [if_neg hpm, if_neg (by
              intro hcon
              rcases List.mem_cons.mp hcon with h1 | h1
              · exact hpq h1
              · exact hpm h1)]

/-- C3 counterexample: step 1's source offset `(2, 5)` lies inside the
statement candidate `(0, 10)` (and it is the first such step), yet after
the whole walk the candidate is still in the working set and no statement
was ever assigned — the function-attribution lookup failed at that step,
so the candidate was *not* consumed at the first instruction step whose
offset it contains. -/
theorem c3_counterexample :
    (walkLoop c3env c3sm c3st0).map
        (fun s => (s.stmtNodes, s.stmtMap, s.pcList[1]?.map (fun i => i.offset))) =
      Except.ok ([("p", [(0, 10)])], [], some (some (2, 5))) ∧
    is_inside_offset (2, 5) (0, 10) = true :=
  ⟨rfl, rfl⟩

/-- C3 (amended): across the entire statement map of one successful
`generate_coverage_data` run, every statement coverage index appears
exactly once; per path, the assigned statement offsets together with some
leftover form a permutation of the input candidate list — a candidate is
removed from the working set exactly when it is assigned its index (at
the first matching step whose function attribution succeeds), so with
duplicate-free candidates no candidate is ever assigned more than one
index. -/
theorem c3_amended (inp : GCInput) (out : GCOut) (p : String) (l : List (Int × Int))
    (h : generate_coverage_data inp = Except.ok out)
    (hp : alook inp.stmtNodesIn p = some l) :
    ((out.2.1.map StmtEntry.idx).Nodup) ∧
    (∃ rest, List.Perm l (stmtAssigned out.2.1 p ++ rest)) ∧
    (l.Nodup → (stmtAssigned out.2.1 p).Nodup) := by
  unfold generate_coverage_data at h
  split at h
  · cases h
    exact ⟨by simp, ⟨l, by simp [stmtAssigned]⟩, fun _ => by simp [stmtAssigned]⟩
  · cases hsm : expand_source_map inp.sourceMapStr with
    | error e => rw [hsm, except_bind_err] at h; simp at h
    | ok sm =>
      rw [hsm, except_bind_ok] at h
      try dsimp only at h
      cases hsn : lookupAll inp.stmtNodesIn
          (dedupKeepFirst ((dictOfList inp.nodes).map (fun p => p.2))) with
      | error e => rw [hsn, except_bind_err] at h; simp at h
      | ok stmtN =>
        rw [hsn, except_bind_ok] at h
        cases hbr : lookupAll inp.branchNodesIn
            (dedupKeepFirst ((dictOfList inp.nodes).map (fun p => p.2))) with
        | error e => rw [hbr, except_bind_err] at h; simp at h
        | ok brOriginal =>
          rw [hbr, except_bind_ok] at h
          try dsimp only at h
          cases hw : walkLoop
              { sourceNodes := dictOfList inp.nodes,
                branchNodes := brOriginal.map (fun pv => (pv.1, pv.2.map (fun b => b.offset))),
                fnLookup := inp.fnLookup } sm
              { opQ := pySplit inp.opcodesStr ' ', pcList := [], count := 0, pc := 0,
                firstRevert := none, revertMap := [], stmtNodes := stmtN, stmtMap := [],
                branchActive := (dedupKeepFirst ((dictOfList inp.nodes).map (fun p => p.2))).map
                  (fun p => (p, [])),
                branchSet := (dedupKeepFirst ((dictOfList inp.nodes).map (fun p => p.2))).map
                  (fun p => (p, [])) } with
          | error e => rw [hw, except_bind_err] at h; simp at h
          | ok stW =>
            rw [hw, except_bind_ok] at h
            cases hrp : revertPass inp.revertFn stW.pcList stW.revertMap with
            | error e => rw [hrp, except_bind_err] at h; simp at h
            | ok pcl2 =>
              rw [hrp, except_bind_ok] at h
              cases hfin : finalizeLoop brOriginal pcl2 stW.count
                  (branchTriples stW.branchSet) with
              | error e => rw [hfin, except_bind_err] at h; simp at h
              | ok fin =>
                rw [hfin, except_bind_ok] at h
                rcases fin with ⟨pcl3, brMap, cfin⟩
                try dsimp only at h
                cases h
                have hinv := walkLoop_inv _ sm _ stmtN stW hw (TInv_init stmtN)
                obtain ⟨hA, hB, hC⟩ := hinv
                have hnodup : (stW.stmtMap.map StmtEntry.idx).Nodup :=
                  hB.imp (fun hlt => Nat.ne_of_lt hlt)
                have hal := lookupAll_alook inp.stmtNodesIn _ stmtN hsn
                  (dedupKeepFirst_nodup _) p
                have hCp := hC p
                have hex : ∃ rest, List.Perm l (stmtAssigned stW.stmtMap p ++ rest) := by
                  by_cases hpm : p ∈ dedupKeepFirst ((dictOfList inp.nodes).map (fun p => p.2))
                  · rw [if_pos hpm, hp] at hal
                    rw [hal] at hCp
                    cases hcur : alook stW.stmtNodes p with
                    | none => rw [hcur] at hCp; exact absurd hCp (by simp)
                    | some cur =>
                      rw [hcur] at hCp
                      exact ⟨cur, hCp⟩
                  · rw [if_neg hpm] at hal
                    rw [hal] at hCp
                    cases hcur : alook stW.stmtNodes p with
                    | some cur => rw [hcur] at hCp; exact absurd hCp (by simp)
                    | none =>
                      rw [hcur] at hCp
                      simp only at hCp
                      refine ⟨l, ?_⟩
                      rw [hCp]
                      simp
                refine ⟨hnodup, hex, ?_⟩
                intro hlnd
                obtain ⟨rest, hperm⟩ := hex
                exact ((hperm.nodup hlnd).of_append_left)

/-- Witness for C3-amended on `c3wInput`: one candidate, none assigned. -/
theorem c3_amended_witness :
    (([] : List StmtEntry).map StmtEntry.idx).Nodup ∧
    (∃ rest, List.Perm [((0 : Int), (5 : Int))] (stmtAssigned [] "p" ++ rest)) ∧
    ([((0 : Int), (5 : Int))].Nodup → (stmtAssigned [] "p").Nodup) :=
  c3_amended c3wInput
    ([{ op := "STOP", pc := 0, path := some "p", offset := some (0, 5) }], [], [])
    "p" [(0, 5)] rfl rfl
